import Mathlib

/-!
# Verification of the nimble-streamer-log-analyzer IP resolution engine

Shallow embedding of the IP-resolution core of the repository:
`enhanced_ipinfo_service.py` (class `EnhancedIPinfoService`) and
`local_ip_database.py` (class `LocalIPDatabase`), plus the private-IP
classifier of `ipinfo_service.py` (class `IPInfoService`).

Modelling conventions:
* Python dict values flowing through the resolution code are modelled by `Val`
  (strings, ints, booleans, datetimes as abstract `Nat` instants, and `None`).
* Python dicts are insertion-ordered association lists (`aset` updates in
  place, appends fresh keys, exactly like CPython dicts).
* The SQLite table `ip_data` is an association list from ip to a total `Row`
  (one field per column of the CREATE TABLE statement).
* Time is an abstract `Nat` counted in seconds; `timedelta(days=7)` becomes
  `ttlSeconds = 7 * 86400`.  `datetime.min` is so far in the past that any
  entry stamped with it is stale, which we model by treating a missing
  `timestamp` key as stale.
* Fallible effects are modelled in `Except Unit`: an `Except.error` is an
  uncaught Python exception reaching the caller.  Failure injection points
  (`dbFail` for SQLite errors, `offlineFail` for MMDB reader exceptions,
  `saveFail` for cache-file write errors) mirror exactly where the source
  wraps code in `try`/`except` and where it does not.
* The MMDB readers and the online HTTP API are oracles
  (`String → Option Dict`): `none` is "no data / reader absent miss /
  non-200 / network error".
-/

/-- A Python value as it appears in the record dicts of the resolution code. -/
inductive Val where
  | s (v : String)
  | i (n : Int)
  | b (v : Bool)
  | t (n : Nat)
  | null
deriving DecidableEq, Repr

/-- Python `str()` of a `Val`, as used by `_extract_db_value`. -/
def pyStr : Val → String
  | .s v => v
  | .i n => toString n
  | .b true => "True"
  | .b false => "False"
  | .t n => "datetime<" ++ toString n ++ ">"
  | .null => "None"

/-- Python truthiness of an optional value (`None` and a missing key are falsy). -/
def pyTruthy : Option Val → Bool
  | none => false
  | some (.s v) => v ≠ ""
  | some (.i n) => n ≠ 0
  | some (.b v) => v
  | some (.t _) => true
  | some .null => false

/-- Lookup in an insertion-ordered association list (Python `d.get(k)` / `k in d`). -/
def aget {α : Type} : List (String × α) → String → Option α
  | [], _ => none
  | (k', v') :: rest, k => if k = k' then some v' else aget rest k

/-- Python `d[k] = v`: update in place if the key exists, else append. -/
def aset {α : Type} : List (String × α) → String → α → List (String × α)
  | [], k, v => [(k, v)]
  | (k', v') :: rest, k, v =>
      if k = k' then (k, v) :: rest else (k', v') :: aset rest k v

/-- Python `del d[k]` (no-op when the key is absent, which never happens in the code). -/
def adel {α : Type} : List (String × α) → String → List (String × α)
  | [], _ => []
  | (k', v') :: rest, k => if k = k' then rest else (k', v') :: adel rest k

/-- A Python record dict: ip → metadata fields. -/
abbrev Dict := List (String × Val)

/-- Python `d.update(e)`. -/
def dupdate (d e : Dict) : Dict := e.foldl (fun acc p => aset acc p.1 p.2) d

/-- `d.get(k, default)` where the default is a plain string. -/
def pyGetS (d : Dict) (k dflt : String) : Val := (aget d k).getD (.s dflt)

/-- CPython `str.split('.')` on the character list: never empty, keeps empty
pieces (`"".split('.') == ['']`, `"a."` yields `['a','']`). -/
def splitDotsAux : List Char → List Char → List (List Char)
  | [], acc => [acc.reverse]
  | c :: rest, acc =>
      if c = '.' then acc.reverse :: splitDotsAux rest []
      else splitDotsAux rest (c :: acc)

/-- `ip.split('.')` as strings (kernel-reducible replacement for `String.splitOn`). -/
def pySplitDots (s : String) : List String :=
  (splitDotsAux s.toList []).map (fun cs => String.mk cs)

/-- Strip leading and trailing whitespace (Python `str.strip()` as performed by `int`). -/
def trimChars (cs : List Char) : List Char :=
  ((cs.dropWhile Char.isWhitespace).reverse.dropWhile Char.isWhitespace).reverse

/-- Decimal digit value of a character, if any. -/
def pyDigit? (c : Char) : Option Nat :=
  if c.isDigit then some (c.toNat - 48) else none

/-- Digits of a Python int literal after the first digit: single underscores are
allowed between digits only. -/
def pyDigitsRest : List Char → Nat → Option Nat
  | [], acc => some acc
  | '_' :: rest, acc =>
      match rest with
      | [] => none
      | c :: rest' =>
          match pyDigit? c with
          | some d => pyDigitsRest rest' (acc * 10 + d)
          | none => none
  | c :: rest, acc =>
      match pyDigit? c with
      | some d => pyDigitsRest rest (acc * 10 + d)
      | none => none

/-- Python `int(s)` on the trimmed character list: optional sign, then digits. -/
def pyIntOfChars : List Char → Option Int
  | [] => none
  | '+' :: rest =>
      match rest with
      | [] => none
      | c :: rest' =>
          match pyDigit? c with
          | some d => (pyDigitsRest rest' d).map Int.ofNat
          | none => none
  | '-' :: rest =>
      match rest with
      | [] => none
      | c :: rest' =>
          match pyDigit? c with
          | some d => (pyDigitsRest rest' d).map (fun n => -(Int.ofNat n))
          | none => none
  | c :: rest =>
      match pyDigit? c with
      | some d => (pyDigitsRest rest d).map Int.ofNat
      | none => none

/-- Python `int(s)`: `ValueError` becomes `none`. -/
def pyInt (s : String) : Option Int := pyIntOfChars (trimChars s.toList)

/-- `list(map(int, ip.split('.')))`: `none` models the `ValueError` raised as
soon as any octet fails to parse. -/
def splitMapInt (ip : String) : Option (List Int) :=
  (pySplitDots ip).mapM pyInt

namespace Enhanced

/-- `EnhancedIPinfoService._is_private_ip` — textually identical to
`LocalIPDatabase._is_private_ip`, so this one definition embeds both.
`ValueError` (non-numeric octet) and `IndexError` (too few octets for the
range tests that index `parts[1]`) are caught and yield `False`. -/
def is_private_ip (ip : String) : Bool :=
  match splitMapInt ip with
  | none => false
  | some parts =>
      match parts with
      | [] => false
      | p0 :: rest =>
          if p0 = 10 then true
          else if p0 = 172 then
            match rest with
            | [] => false
            | p1 :: _ => decide (16 ≤ p1 ∧ p1 ≤ 31)
          else if p0 = 192 then
            match rest with
            | [] => false
            | p1 :: _ => decide (p1 = 168)
          else decide (p0 = 127)

end Enhanced

namespace IPInfoSvc

/-- `IPInfoService._is_private_ip`: malformed input (wrong octet count or a
non-numeric first/second octet) is treated as private (`True`), and the
link-local `169.254` prefix is also private. -/
def is_private_ip (ip : String) : Bool :=
  let parts := pySplitDots ip
  if parts.length ≠ 4 then true
  else
    match parts with
    | p0s :: p1s :: _ =>
        match pyInt p0s, pyInt p1s with
        | some a, some b =>
            if a = 10 then true
            else if a = 172 ∧ 16 ≤ b ∧ b ≤ 31 then true
            else if a = 192 ∧ b = 168 then true
            else if a = 127 then true
            else if List.isPrefixOf "169.254".toList ip.toList then true
            else false
        | _, _ => true
    | _ => true

end IPInfoSvc

/-- A row of the SQLite table `ip_data`, one field per column of the
`CREATE TABLE` statement in `LocalIPDatabase._initialize_database`.
SQLite is dynamically typed, so data columns hold `Val`; the bookkeeping
columns (`first_seen`, `last_updated` via `CURRENT_TIMESTAMP`, and the
integer `query_count`) are abstract instants / counters. -/
structure Row where
  ip : String
  country : Val
  country_code : Val
  country_name : Val
  continent : Val
  continent_code : Val
  region : Val
  city : Val
  asn : Val
  as_name : Val
  as_domain : Val
  org : Val
  isp : Val
  timezone : Val
  is_private : Val
  source : Val
  first_seen : Nat
  last_updated : Nat
  query_count : Nat
deriving DecidableEq, Repr

/-- `EnhancedIPinfoService.stats` session counters. -/
structure Stats where
  offline_hits : Nat
  online_hits : Nat
  cache_hits : Nat
  local_db_hits : Nat
  errors : Nat
deriving DecidableEq, Repr

/-- The durable store: the `ip_data` table keyed by ip. -/
abbrev DB := List (String × Row)

/-- The ephemeral cache: `EnhancedIPinfoService.cache`, ip → record dict
(each record carries a `"timestamp"` key). -/
abbrev Cache := List (String × Dict)

/-- The map returned by `bulk_lookup`. -/
abbrev Results := List (String × Dict)

/-- Combined state of the service pair (`EnhancedIPinfoService` plus its
`LocalIPDatabase`), with the environment oracles and failure injectors.

* `token` / `localToken` — the two independent API tokens of the two classes.
* `liteDb` — the shared `ipinfo_data/ipinfo_lite.mmdb` reader (both classes
  open the same file); `countryDb` / `cityDb` — the fallback readers of
  `EnhancedIPinfoService`; `none` means the file is absent.
* `online` — the HTTP oracle: JSON body of a 200 response, or `none` for a
  non-200 / network error.
* `dbFail` — a SQLite operation raises (those calls are *not* wrapped in
  `try`/`except` in the source, so the exception escapes).
* `offlineFail` — an MMDB read inside `_get_offline_info` raises (the source
  catches it, bumps `stats['errors']`, and degrades).
* `saveFail` — writing the cache file raises `OSError`/`ValueError` (the
  source catches it and bumps `stats['errors']`). -/
structure SvcState where
  db : DB
  cache : Cache
  token : Option String
  localToken : Option String
  liteDb : Option (String → Option Dict)
  countryDb : Option (String → Option Dict)
  cityDb : Option (String → Option Dict)
  online : String → Option Dict
  dbFail : Bool
  offlineFail : Bool
  saveFail : Bool
  stats : Stats

/-- `timedelta(days=7)` in seconds: the `cache_duration` TTL. -/
def ttlSeconds : Nat := 7 * 86400

/-- Abstract ISO-8601 rendering of an instant
(`datetime.now().isoformat()` — the point is that it is a *string*). -/
def isoStr (n : Nat) : String := "iso8601:" ++ toString n

namespace LocalDB

/-- The synthesized private-network record of `LocalIPDatabase.get_ip_info`. -/
def privateDict (ip : String) : Dict :=
  [("ip", .s ip), ("country", .s "Private"), ("country_code", .s "PRIVATE"),
   ("country_name", .s "Private Network"), ("continent", .s "Private"),
   ("continent_code", .s "PRIVATE"), ("region", .s "Private"),
   ("city", .s "Private Network"), ("asn", .s "Private"),
   ("as_name", .s "Private Network"), ("as_domain", .s "private"),
   ("org", .s "Private Network"), ("isp", .s "Private Network"),
   ("timezone", .s "Unknown"), ("is_private", .i 1), ("source", .s "private")]

/-- `LocalIPDatabase._get_mmdb_data`: raw `.get` extraction from the lite
reader, tagged `source='mmdb'`. -/
def get_mmdb_data (s : SvcState) (ip : String) : Option Dict :=
  match s.liteDb with
  | none => none
  | some rd =>
      match rd ip with
      | none => none
      | some data =>
          if data = [] then none
          else
            some [("country", (aget data "country").getD (.s "Unknown")),
                  ("country_code", (aget data "country_code").getD (.s "XX")),
                  ("continent", (aget data "continent").getD (.s "Unknown")),
                  ("continent_code", (aget data "continent_code").getD (.s "XX")),
                  ("asn", (aget data "asn").getD (.s "Unknown")),
                  ("as_name", (aget data "as_name").getD (.s "Unknown")),
                  ("as_domain", (aget data "as_domain").getD (.s "unknown")),
                  ("source", .s "mmdb")]

/-- `LocalIPDatabase._get_ipinfo_data`: gated on the local token; reshapes the
raw 200-response JSON. -/
def get_ipinfo_data (s : SvcState) (ip : String) : Option Dict :=
  match s.localToken with
  | none => none
  | some _ =>
      match s.online ip with
      | none => none
      | some data =>
          let region := if (aget data "region").isSome then (aget data "region").getD .null
                        else .s "Unknown"
          let city := if (aget data "city").isSome then (aget data "city").getD .null
                      else .s "Unknown"
          some [("country", (aget data "country_name").getD
                              ((aget data "country").getD (.s "Unknown"))),
                ("country_code", (aget data "country").getD (.s "XX")),
                ("region", region), ("city", city),
                ("org", (aget data "org").getD (.s "Unknown")),
                ("asn", (aget data "asn").getD (.s "Unknown")),
                ("timezone", (aget data "timezone").getD (.s "Unknown")),
                ("source", .s "ipinfo_api")]

/-- The `default_fields` literal of `LocalIPDatabase.get_ip_info`, in dict order. -/
def defaultFields : List (String × String) :=
  [("country", "Unknown"), ("country_code", "XX"), ("country_name", "Unknown"),
   ("continent", "Unknown"), ("continent_code", "XX"), ("region", "Unknown"),
   ("city", "Unknown"), ("asn", "Unknown"), ("as_name", "Unknown"),
   ("as_domain", "unknown"), ("org", "Unknown"), ("isp", "Unknown"),
   ("timezone", "Unknown"), ("source", "unknown")]

/-- One iteration of the defaults loop: `if field not in ip_info or
ip_info[field] in ['', None]: ip_info[field] = default_value`. -/
def fixDefault (d : Dict) (p : String × String) : Dict :=
  match aget d p.1 with
  | none => aset d p.1 (.s p.2)
  | some v => if v = .s "" ∨ v = .null then aset d p.1 (.s p.2) else d

/-- The whole defaults loop. -/
def fillDefaults (d : Dict) : Dict := defaultFields.foldl fixDefault d

/-- The ISP-derivation step of `LocalIPDatabase.get_ip_info` (after defaults,
`org`/`as_name`/`asn`/`isp` are all present). -/
def deriveIsp (d : Dict) : Dict :=
  if aget d "isp" = some (.s "Unknown") ∧ aget d "org" ≠ some (.s "Unknown") then
    aset d "isp" ((aget d "org").getD .null)
  else if aget d "isp" = some (.s "Unknown") ∧ aget d "as_name" ≠ some (.s "Unknown") then
    aset d "isp" (.s (pyStr ((aget d "as_name").getD .null) ++ " (" ++
                      pyStr ((aget d "asn").getD .null) ++ ")"))
  else d

/-- `LocalIPDatabase._store_ip_data`: `INSERT OR REPLACE` with the
`COALESCE((SELECT query_count ...), 0) + 1` subquery.  The replacing insert
omits `first_seen`, so SQLite refills it from its column default
`CURRENT_TIMESTAMP` — i.e. `first_seen` is reset to `now`. -/
def store_ip_data (db : DB) (now : Nat) (ip : String) (data : Dict) : DB :=
  let prior := match aget db ip with
               | some r => r.query_count
               | none => 0
  aset db ip
    { ip := ip
      country := pyGetS data "country" "Unknown"
      country_code := pyGetS data "country_code" "XX"
      country_name := (aget data "country_name").getD (pyGetS data "country" "Unknown")
      continent := pyGetS data "continent" "Unknown"
      continent_code := pyGetS data "continent_code" "XX"
      region := pyGetS data "region" "Unknown"
      city := pyGetS data "city" "Unknown"
      asn := pyGetS data "asn" "Unknown"
      as_name := pyGetS data "as_name" "Unknown"
      as_domain := pyGetS data "as_domain" "unknown"
      org := pyGetS data "org" "Unknown"
      isp := (aget data "isp").getD (pyGetS data "org" "Unknown")
      timezone := pyGetS data "timezone" "Unknown"
      is_private := (aget data "is_private").getD (.i 0)
      source := pyGetS data "source" "unknown"
      first_seen := now
      last_updated := now
      query_count := prior + 1 }

/-- `_store_ip_data` guarded by the SQLite failure injector (the call sites in
the source never wrap it in `try`/`except`). -/
def storeE (s : SvcState) (now : Nat) (ip : String) (data : Dict) :
    Except Unit SvcState :=
  if s.dbFail then .error ()
  else .ok { s with db := store_ip_data s.db now ip data }

/-- `SELECT * FROM ip_data` row as the dict the source builds with
`dict(zip(columns, row))`, in `CREATE TABLE` column order. -/
def rowToDict (r : Row) : Dict :=
  [("ip", .s r.ip), ("country", r.country), ("country_code", r.country_code),
   ("country_name", r.country_name), ("continent", r.continent),
   ("continent_code", r.continent_code), ("region", r.region),
   ("city", r.city), ("asn", r.asn), ("as_name", r.as_name),
   ("as_domain", r.as_domain), ("org", r.org), ("isp", r.isp),
   ("timezone", r.timezone), ("is_private", r.is_private),
   ("source", r.source), ("first_seen", .t r.first_seen),
   ("last_updated", .t r.last_updated), ("query_count", .i r.query_count)]

/-- The fresh ("external sources") path of `LocalIPDatabase.get_ip_info`:
starts from `{'ip': ip, 'is_private': 0}`, merges MMDB then API data,
fills defaults and derives `isp`.  (Pure part, before the store.) -/
def externalDict (s : SvcState) (ip : String) : Dict :=
  let base : Dict := [("ip", .s ip), ("is_private", .i 0)]
  let mm := get_mmdb_data s ip
  let d1 := match mm with
            | some m => dupdate base m
            | none => base
  let d2 := match get_ipinfo_data s ip with
            | some a =>
                let u := dupdate d1 a
                if mm.isSome then aset u "source" (.s "mmdb+ipinfo_api") else u
            | none => d1
  deriveIsp (fillDefaults d2)

/-- The `UPDATE ip_data SET query_count = query_count + 1,
last_updated = CURRENT_TIMESTAMP` applied to a row. -/
def bumpRow (row : Row) (now : Nat) : Row :=
  { row with query_count := row.query_count + 1, last_updated := now }

/-- `LocalIPDatabase.get_ip_info(ip)` (with the default `force_refresh=False`):
private check first, then the stored row (bumping `query_count` and
`last_updated` in place, but returning the *pre-update* row with
`from_cache=True`), else the external-sources path followed by a store. -/
def get_ip_info (s : SvcState) (now : Nat) (ip : String) :
    Except Unit (Dict × SvcState) :=
  if ip = "" then .ok ([], s)
  else if Enhanced.is_private_ip ip then do
    let s' ← storeE s now ip (privateDict ip)
    .ok (privateDict ip, s')
  else if s.dbFail then .error ()
  else
    match aget s.db ip with
    | some row =>
        let db' := aset s.db ip (bumpRow row now)
        .ok (aset (rowToDict row) "from_cache" (.b true), { s with db := db' })
    | none =>
        let d := externalDict s ip
        let s' := { s with db := store_ip_data s.db now ip d }
        .ok (d, s')

end LocalDB

/-- `stats['local_db_hits'] += 1`. -/
def bumpLocalHits (s : SvcState) : SvcState :=
  { s with stats := { s.stats with local_db_hits := s.stats.local_db_hits + 1 } }

/-- `stats['cache_hits'] += 1`. -/
def bumpCacheHits (s : SvcState) : SvcState :=
  { s with stats := { s.stats with cache_hits := s.stats.cache_hits + 1 } }

/-- `stats['offline_hits'] += 1`. -/
def bumpOfflineHits (s : SvcState) : SvcState :=
  { s with stats := { s.stats with offline_hits := s.stats.offline_hits + 1 } }

/-- `stats['online_hits'] += 1`. -/
def bumpOnlineHits (s : SvcState) : SvcState :=
  { s with stats := { s.stats with online_hits := s.stats.online_hits + 1 } }

/-- `stats['errors'] += 1`. -/
def bumpErrors (s : SvcState) : SvcState :=
  { s with stats := { s.stats with errors := s.stats.errors + 1 } }

/-- `EnhancedIPinfoService._save_cache`: the `try`/`except` catches
`OSError`/`ValueError`, bumps `stats['errors']` and keeps going; the in-memory
map is unaffected either way. -/
def save_cache (s : SvcState) : SvcState :=
  if s.saveFail then bumpErrors s else s

namespace Enhanced

/-- `EnhancedIPinfoService._extract_db_value`: `str(data.get(key, default))`. -/
def extract_db_value (data : Dict) (k dflt : String) : Val :=
  .s (pyStr ((aget data k).getD (.s dflt)))

/-- The private-network record of `_get_offline_info` (`source='offline_private'`;
note: no `isp`, no `is_private` key). -/
def offlinePrivateDict (ip : String) : Dict :=
  [("ip", .s ip), ("country", .s "Private"), ("country_name", .s "Private Network"),
   ("country_code", .s "PRIVATE"), ("region", .s "Private Network"),
   ("city", .s "Private Network"), ("org", .s "Private Network"),
   ("asn", .s "Private"), ("as_name", .s "Private Network"),
   ("as_domain", .s "private"), ("continent", .s "Private"),
   ("continent_code", .s "PRIVATE"), ("timezone", .s "Unknown"),
   ("source", .s "offline_private")]

/-- `any(k in info and info[k] not in ['Unknown', 'Not Available (Lite DB)']
for k in ks)`. -/
def meaningful (d : Dict) (ks : List String) : Bool :=
  ks.any (fun k =>
    match aget d k with
    | some v => v ≠ .s "Unknown" && v ≠ .s "Not Available (Lite DB)"
    | none => false)

/-- The country/city fallback-database section of `_get_offline_info`
(runs when the lite database is absent, misses, or yields nothing meaningful;
`info` carries whatever the lite section already wrote). -/
def offlineFallbackSection (s : SvcState) (ip : String) (info : Dict) : Option Dict :=
  let infoA := match s.countryDb with
    | none => info
    | some rd =>
        match rd ip with
        | none => info
        | some cd =>
            if cd = [] then info
            else
              aset (aset (aset info
                "country" (extract_db_value cd "country" "Unknown"))
                "country_name" (extract_db_value cd "country_name" "Unknown"))
                "country_code" (extract_db_value cd "country_code" "XX")
  let infoB := match s.cityDb with
    | none => infoA
    | some rd =>
        match rd ip with
        | none => infoA
        | some cd =>
            if cd = [] then infoA
            else
              aset (aset (aset infoA
                "region" (extract_db_value cd "region" "Unknown"))
                "city" (extract_db_value cd "city" "Unknown"))
                "timezone" (extract_db_value cd "timezone" "Unknown")
  let infoC := ["asn", "as_name", "as_domain", "continent", "continent_code"].foldl
    (fun d k => if (aget d k).isSome then d else aset d k (.s "Unknown")) infoB
  let infoD :=
    let d1 := if (aget infoC "region").isSome then infoC else aset infoC "region" (.s "Unknown")
    let d2 := if (aget d1 "city").isSome then d1 else aset d1 "city" (.s "Unknown")
    if (aget d2 "org").isSome then d2 else aset d2 "org" (.s "Unknown")
  if meaningful infoD ["country", "city", "asn"] then some infoD else none

/-- The country-database stage (`infoA`) of the fallback section, as a named
function for reasoning. -/
def fbCountry (s : SvcState) (ip : String) (info : Dict) : Dict :=
  match s.countryDb with
  | none => info
  | some rd =>
      match rd ip with
      | none => info
      | some cd =>
          if cd = [] then info
          else
            aset (aset (aset info
              "country" (extract_db_value cd "country" "Unknown"))
              "country_name" (extract_db_value cd "country_name" "Unknown"))
              "country_code" (extract_db_value cd "country_code" "XX")

/-- The city-database stage (`infoB`) of the fallback section. -/
def fbCity (s : SvcState) (ip : String) (info : Dict) : Dict :=
  match s.cityDb with
  | none => info
  | some rd =>
      match rd ip with
      | none => info
      | some cd =>
          if cd = [] then info
          else
            aset (aset (aset info
              "region" (extract_db_value cd "region" "Unknown"))
              "city" (extract_db_value cd "city" "Unknown"))
              "timezone" (extract_db_value cd "timezone" "Unknown")

/-- The `Unknown`-padding loop stage (`infoC`) of the fallback section. -/
def fbPad (info : Dict) : Dict :=
  ["asn", "as_name", "as_domain", "continent", "continent_code"].foldl
    (fun d k => if (aget d k).isSome then d else aset d k (.s "Unknown")) info

/-- The region/city/org padding stage (`infoD`) of the fallback section. -/
def fbRco (info : Dict) : Dict :=
  let d1 := if (aget info "region").isSome then info else aset info "region" (.s "Unknown")
  let d2 := if (aget d1 "city").isSome then d1 else aset d1 "city" (.s "Unknown")
  if (aget d2 "org").isSome then d2 else aset d2 "org" (.s "Unknown")

/-- The record the lite-database section of `_get_offline_info` builds from
reader data `ld` (the `i1`–`i12` chain over the seed record). -/
def liteInfo (ip : String) (ld : Dict) : Dict :=
  let info0 : Dict := [("ip", .s ip), ("source", .s "offline")]
  let i1 := aset info0 "country" (extract_db_value ld "country" "Unknown")
  let i2 := aset i1 "country_name" (extract_db_value ld "country" "Unknown")
  let i3 := aset i2 "country_code" (extract_db_value ld "country_code" "Unknown")
  let i4 := aset i3 "continent" (extract_db_value ld "continent" "Unknown")
  let i5 := aset i4 "continent_code" (extract_db_value ld "continent_code" "Unknown")
  let i6 := aset i5 "asn" (extract_db_value ld "asn" "Unknown")
  let i7 := aset i6 "as_name" (extract_db_value ld "as_name" "Unknown")
  let i8 := aset i7 "as_domain" (extract_db_value ld "as_domain" "Unknown")
  let i9 :=
    if aget i8 "as_name" ≠ some (.s "Unknown") then
      aset i8 "org" (.s (pyStr ((aget i8 "as_name").getD .null) ++ " (" ++
                         pyStr ((aget i8 "asn").getD .null) ++ ")"))
    else aset i8 "org" (.s "Unknown")
  let i10 := aset i9 "region" (.s "Not Available (Lite DB)")
  let i11 := aset i10 "city" (.s "Not Available (Lite DB)")
  let i12 := aset i11 "timezone" (.s "Unknown")
  i12

/-- The reader-consultation part of `_get_offline_info` (pure in the state):
the lite reader first (returned only if meaningful), then the country/city
fallback readers. -/
def offlineCore (s : SvcState) (ip : String) : Option Dict :=
  let info0 : Dict := [("ip", .s ip), ("source", .s "offline")]
  let liteData : Option Dict :=
    match s.liteDb with
    | none => none
    | some rd =>
        match rd ip with
        | none => none
        | some d => if d = [] then none else some d
  match liteData with
  | some ld =>
      let i1 := aset info0 "country" (extract_db_value ld "country" "Unknown")
      let i2 := aset i1 "country_name" (extract_db_value ld "country" "Unknown")
      let i3 := aset i2 "country_code" (extract_db_value ld "country_code" "Unknown")
      let i4 := aset i3 "continent" (extract_db_value ld "continent" "Unknown")
      let i5 := aset i4 "continent_code" (extract_db_value ld "continent_code" "Unknown")
      let i6 := aset i5 "asn" (extract_db_value ld "asn" "Unknown")
      let i7 := aset i6 "as_name" (extract_db_value ld "as_name" "Unknown")
      let i8 := aset i7 "as_domain" (extract_db_value ld "as_domain" "Unknown")
      let i9 :=
        if aget i8 "as_name" ≠ some (.s "Unknown") then
          aset i8 "org" (.s (pyStr ((aget i8 "as_name").getD .null) ++ " (" ++
                             pyStr ((aget i8 "asn").getD .null) ++ ")"))
        else aset i8 "org" (.s "Unknown")
      let i10 := aset i9 "region" (.s "Not Available (Lite DB)")
      let i11 := aset i10 "city" (.s "Not Available (Lite DB)")
      let i12 := aset i11 "timezone" (.s "Unknown")
      if meaningful i12 ["country", "asn", "as_name"] then some i12
      else offlineFallbackSection s ip i12
  | none => offlineFallbackSection s ip info0

/-- `EnhancedIPinfoService._get_offline_info`: private synthesis first, then
the readers.  The whole body is wrapped in `try`/`except`, so an MMDB failure
(`offlineFail`) degrades to `None` after bumping `stats['errors']`. -/
def get_offline_info (s : SvcState) (ip : String) : Option Dict × SvcState :=
  if is_private_ip ip then (some (offlinePrivateDict ip), s)
  else if s.offlineFail then (none, bumpErrors s)
  else (offlineCore s ip, s)

/-- `EnhancedIPinfoService._get_online_info`: gated on `self.token`; a 200
response body gets `source='online'`, everything else is `None`. -/
def get_online_info (s : SvcState) (ip : String) : Option Dict :=
  match s.token with
  | none => none
  | some _ =>
      match s.online ip with
      | none => none
      | some data => some (aset data "source" (.s "online"))

/-- The all-"Unknown" fallback record of `get_ip_info` (step 5). -/
def fallbackDict (ip : String) : Dict :=
  [("ip", .s ip), ("country", .s "Unknown"), ("country_name", .s "Unknown"),
   ("country_code", .s "XX"), ("region", .s "Unknown"), ("city", .s "Unknown"),
   ("org", .s "Unknown"), ("asn", .s "Unknown"), ("as_name", .s "Unknown"),
   ("as_domain", .s "Unknown"), ("continent", .s "Unknown"),
   ("continent_code", .s "XX"), ("timezone", .s "Unknown"),
   ("source", .s "fallback")]

/-- The bulk-path fallback record (same fields plus a `datetime` timestamp). -/
def bulkFallbackDict (now : Nat) (ip : String) : Dict :=
  fallbackDict ip ++ [("timestamp", .t now)]

/-- `datetime.now() - cached_data.get('timestamp', datetime.min) <
self.cache_duration`, as an `Except`: `ok true` = fresh hit, `ok false` =
stale, `error` = the `TypeError` Python raises when the stored timestamp is a
*string* (which is what the single-IP path writes via `.isoformat()`).
A missing timestamp defaults to `datetime.min`, which is always stale for a
real clock. -/
def cacheFresh (now : Nat) (d : Dict) : Except Unit Bool :=
  match aget d "timestamp" with
  | some (.t T) => .ok (decide (now - T < ttlSeconds))
  | none => .ok false
  | some _ => .error ()

/-- Steps 3–7 of `EnhancedIPinfoService.get_ip_info`: offline lookup, the
conditional online merge (online fields win), fallback synthesis, the
store-write guarded by `source != 'fallback'`, and the cache write-through
with a *string* timestamp. -/
def resolveLower (s : SvcState) (now : Nat) (ip : String) :
    Except Unit (Dict × SvcState) := do
  let off := (get_offline_info s ip).1
  let s3 := (get_offline_info s ip).2
  let needOnline : Bool :=
    match off with
    | none => true
    | some o => (aget o "source" = some (.s "offline")) ∧ ¬(pyTruthy (aget o "org") = true)
  let merged : Option Dict :=
    if needOnline then
      match get_online_info s3 ip with
      | some onl =>
          match off with
          | some o => some (dupdate o onl)
          | none => some onl
      | none => off
    else off
  let rec0 := match merged with
              | some r => r
              | none => fallbackDict ip
  let s4 ← if rec0 ≠ [] ∧ aget rec0 "source" ≠ some (.s "fallback") then
             LocalDB.storeE s3 now ip rec0
           else pure s3
  let rec1 := aset rec0 "timestamp" (.s (isoStr now))
  let s5 := { s4 with cache := aset s4.cache ip rec1 }
  .ok (rec1, save_cache s5)

/-- `EnhancedIPinfoService.get_ip_info`: empty input short-circuits to `{}`;
step 1 queries the local database (returns on a known country); step 2 the
TTL cache (hit returns, stale evicts); then the lower tiers. -/
def get_ip_info (s : SvcState) (now : Nat) (ip : String) :
    Except Unit (Dict × SvcState) := do
  if ip = "" then .ok ([], s)
  else
    let (lr, s1) ← LocalDB.get_ip_info s now ip
    if lr ≠ [] ∧ aget lr "country" ≠ some (.s "Unknown") then
      .ok (lr, bumpLocalHits s1)
    else
      match aget s1.cache ip with
      | some c => do
          let fresh ← cacheFresh now c
          if fresh then .ok (c, bumpCacheHits s1)
          else resolveLower { s1 with cache := adel s1.cache ip } now ip
      | none => resolveLower s1 now ip

/-- One input IP of the first (sequential) pass of `bulk_lookup`: local
database, then cache, then offline databases; unresolved IPs are appended to
the needs-online list. -/
def phaseAStep (now : Nat) (ip : String) (res : Results) (onl : List String)
    (s : SvcState) : Except Unit (Results × List String × SvcState) := do
  let (lr, s1) ← LocalDB.get_ip_info s now ip
  if lr ≠ [] ∧ aget lr "country" ≠ some (.s "Unknown") then
    .ok (aset res ip lr, onl, bumpLocalHits s1)
  else
    let offlinePart := fun (s2 : SvcState) => do
      let off := (get_offline_info s2 ip).1
      let s3 := (get_offline_info s2 ip).2
      match off with
      | some o =>
          if aget o "source" = some (.s "offline_private") ∨
             pyGetS o "country" "Unknown" ≠ .s "Unknown" then do
            let o' := aset o "timestamp" (.t now)
            let s4 ← LocalDB.storeE (bumpOfflineHits s3) now ip o'
            .ok (aset res ip o', onl, { s4 with cache := aset s4.cache ip o' })
          else .ok (res, onl ++ [ip], s3)
      | none => .ok (res, onl ++ [ip], s3)
    match aget s1.cache ip with
    | some c => do
        let fresh ← cacheFresh now c
        if fresh then .ok (aset res ip c, onl, bumpCacheHits s1)
        else offlinePart { s1 with cache := adel s1.cache ip }
    | none => offlinePart s1

/-- The whole first pass of `bulk_lookup`. -/
def phaseA (now : Nat) : List String → Results → List String → SvcState →
    Except Unit (Results × List String × SvcState)
  | [], res, onl, s => .ok (res, onl, s)
  | ip :: rest, res, onl, s => do
      let (res', onl', s') ← phaseAStep now ip res onl s
      phaseA now rest res' onl' s'

/-- One needs-online IP of the second pass of `bulk_lookup` (`fetch_online`
plus the `as_completed` merge): a successful response is timestamped, counted,
stored and cached; a failed one yields an uncached, unstored fallback record. -/
def phaseBStep (now : Nat) (ip : String) (res : Results) (s : SvcState) :
    Except Unit (Results × SvcState) := do
  match get_online_info s ip with
  | some info =>
      let info' := aset info "timestamp" (.t now)
      let s4 ← LocalDB.storeE (bumpOnlineHits s) now ip info'
      .ok (aset res ip info', { s4 with cache := aset s4.cache ip info' })
  | none => .ok (aset res ip (bulkFallbackDict now ip), s)

/-- The whole second pass (the worker-pool results merge in arrival order;
distinct keys make the merge order-independent, here sequential). -/
def phaseB (now : Nat) : List String → Results → SvcState →
    Except Unit (Results × SvcState)
  | [], res, s => .ok (res, s)
  | ip :: rest, res, s => do
      let (res', s') ← phaseBStep now ip res s
      phaseB now rest res' s'

/-- The final fill-in loop of `bulk_lookup`: any input IP still missing from
the result map gets the canonical fallback record. -/
def fillIn (now : Nat) : List String → Results → Results
  | [], res => res
  | ip :: rest, res =>
      fillIn now rest
        (if (aget res ip).isSome then res else aset res ip (bulkFallbackDict now ip))

/-- `EnhancedIPinfoService.bulk_lookup`: empty list short-circuits; phase A
sequentially, phase B only when a token is configured and some IPs need the
online tier, then the fill-in loop and one cache save for the whole batch. -/
def bulk_lookup (s : SvcState) (now : Nat) (ips : List String) :
    Except Unit (Results × SvcState) := do
  if ips = [] then .ok ([], s)
  else
    let (res1, onl, s1) ← phaseA now ips [] [] s
    let (res2, s2) ←
      if s1.token.isSome ∧ onl ≠ [] then phaseB now onl res1 s1
      else pure (res1, s1)
    .ok (fillIn now ips res2, save_cache s2)

end Enhanced

/-- The bare configuration: no tokens, no offline database files, empty durable
store, empty cache, no failure injection, zeroed statistics. -/
def bareState : SvcState :=
  { db := [], cache := [], token := none, localToken := none,
    liteDb := none, countryDb := none, cityDb := none,
    online := fun _ => none, dbFail := false, offlineFail := false,
    saveFail := false, stats := ⟨0, 0, 0, 0, 0⟩ }

/-- Did the call raise an uncaught exception? -/
def raised {α : Type} (e : Except Unit α) : Bool :=
  match e with
  | .error _ => true
  | .ok _ => false

/-- Record component of a single-IP resolution outcome (`[]` on an exception). -/
def okDict (e : Except Unit (Dict × SvcState)) : Dict :=
  match e with
  | .ok (d, _) => d
  | .error _ => []

/-- State component of a single-IP resolution outcome (`bareState` on an exception). -/
def okState (e : Except Unit (Dict × SvcState)) : SvcState :=
  match e with
  | .ok (_, s) => s
  | .error _ => bareState

/-- Result-map component of a bulk resolution outcome. -/
def okRes (e : Except Unit (Results × SvcState)) : Results :=
  match e with
  | .ok (r, _) => r
  | .error _ => []

/-- State component of a bulk resolution outcome. -/
def okResState (e : Except Unit (Results × SvcState)) : SvcState :=
  match e with
  | .ok (_, s) => s
  | .error _ => bareState

/-- No stored row carries the `fallback` source tag. -/
def noFallbackRows (db : DB) : Prop :=
  ∀ p ∈ db, p.2.source ≠ .s "fallback"

/-- No ephemeral-cache entry carries the `fallback` source tag. -/
def noFallbackCache (c : Cache) : Prop :=
  ∀ p ∈ c, aget p.2 "source" ≠ some (.s "fallback")

/-- Store invariant maintained by the bare-configuration bulk path: rows for
non-private IPs are all-"Unknown" placeholders, and no row is a fallback. -/
def dbInv (db : DB) : Prop :=
  (∀ p ∈ db, Enhanced.is_private_ip p.1 = false → p.2.country = .s "Unknown") ∧
  noFallbackRows db

/-- A state in the bare configuration (no tokens, no readers, empty cache, no
failure injection), whose store satisfies `dbInv`. -/
def bareLike (s : SvcState) : Prop :=
  s.token = none ∧ s.localToken = none ∧ s.liteDb = none ∧
  s.countryDb = none ∧ s.cityDb = none ∧ s.dbFail = false ∧
  s.offlineFail = false ∧ s.cache = [] ∧ dbInv s.db

/-- What phase A of `bulk_lookup` adds to the result map in the bare
configuration: the synthesized private records. -/
def privAdd (res : Results) (ips : List String) : Results :=
  ips.foldl
    (fun r ip =>
      if Enhanced.is_private_ip ip then aset r ip (LocalDB.privateDict ip) else r)
    res

/-- The record the local-database tier computes afresh when no source has any
data: the base dict plus every default, in insertion order. -/
def unknownFreshDict (ip : String) : Dict :=
  [("ip", .s ip), ("is_private", .i 0), ("country", .s "Unknown"),
   ("country_code", .s "XX"), ("country_name", .s "Unknown"),
   ("continent", .s "Unknown"), ("continent_code", .s "XX"),
   ("region", .s "Unknown"), ("city", .s "Unknown"), ("asn", .s "Unknown"),
   ("as_name", .s "Unknown"), ("as_domain", .s "unknown"),
   ("org", .s "Unknown"), ("isp", .s "Unknown"), ("timezone", .s "Unknown"),
   ("source", .s "unknown")]

/-- A sample stored row used by concrete witnesses. -/
def sampleRow : Row :=
  { ip := "1.2.3.4", country := .s "DE", country_code := .s "DE",
    country_name := .s "Germany", continent := .s "Europe",
    continent_code := .s "EU", region := .s "Berlin", city := .s "Berlin",
    asn := .s "AS3320", as_name := .s "Deutsche Telekom",
    as_domain := .s "telekom.de", org := .s "Deutsche Telekom AG",
    isp := .s "Deutsche Telekom AG", timezone := .s "Europe/Berlin",
    is_private := .i 0, source := .s "mmdb", first_seen := 2,
    last_updated := 3, query_count := 3 }

/-- C1 counterexample auxiliary: concrete single-IP resolution of a private
address in the bare configuration. -/
def c1run : Except Unit (Dict × SvcState) := Enhanced.get_ip_info bareState 0 "10.1.2.3"

/-- The string fields of the spec's IPRecord (the keys of the `default_fields`
dict of `LocalIPDatabase.get_ip_info`, in order). -/
def stringFields : List String :=
  ["country", "country_code", "country_name", "continent", "continent_code",
   "region", "city", "asn", "as_name", "as_domain", "org", "isp",
   "timezone", "source"]

/-- A field is populated: present and neither the empty string nor `None`. -/
def populated (d : Dict) (k : String) : Prop :=
  ∃ v, aget d k = some v ∧ v ≠ .s "" ∧ v ≠ .null

/-- C2 auxiliary: the oracle and state for the counterexample — only the city
fallback database is present, and it knows 5.5.5.5. -/
def c2ceState : SvcState :=
  { bareState with
      cityDb := some (fun ip =>
        if ip = "5.5.5.5" then
          some [("region", .s "Bavaria"), ("city", .s "Munich"),
                ("timezone", .s "Europe/Berlin")]
        else none) }

/-- C2 auxiliary: a lite-database oracle that knows 8.8.8.8, used as witness. -/
def c2wState : SvcState :=
  { bareState with
      liteDb := some (fun ip =>
        if ip = "8.8.8.8" then
          some [("country", .s "United States"), ("country_code", .s "US"),
                ("asn", .s "AS15169"), ("as_name", .s "Google LLC"),
                ("as_domain", .s "google.com")]
        else none) }

/-- Every cache entry's `timestamp`, when present, is a datetime value (as
`_load_cache` produces and the bulk path writes) — not one of the string
timestamps the single-IP path writes. -/
def cacheTimesOk (c : Cache) : Prop :=
  ∀ p ∈ c, ∀ v, aget p.2 "timestamp" = some v → ∃ T, v = .t T

/-- C4 auxiliary: state holding one stored public row. -/
def c4wState : SvcState := { bareState with db := [("1.2.3.4", sampleRow)] }

/-- C4 auxiliary: the first and second resolutions of 8.8.8.8 against the
lite-database state. -/
def c4first : Except Unit (Dict × SvcState) :=
  Enhanced.get_ip_info c2wState 0 "8.8.8.8"

/-- C4 auxiliary: the second resolution, run on the state the first produced. -/
def c4second : Except Unit (Dict × SvcState) :=
  Enhanced.get_ip_info (okState c4first) 1 "8.8.8.8"

/-- C7 auxiliary: a fresh cache entry for 9.9.9.9 with a datetime timestamp. -/
def c7wEntry : Dict :=
  [("ip", .s "9.9.9.9"), ("country", .s "FR"), ("source", .s "offline"),
   ("timestamp", .t 0)]

/-- C7 auxiliary: the bare state plus that one cache entry. -/
def c7wState : SvcState := { bareState with cache := [("9.9.9.9", c7wEntry)] }

/-- C7 auxiliary: the store-tier lookup the engine performs first. -/
def c7wLocal : Except Unit (Dict × SvcState) :=
  LocalDB.get_ip_info c7wState 5 "9.9.9.9"

/-- C7 auxiliary: a fresh cache entry for an IP the durable store also knows. -/
def c7ceEntry : Dict :=
  [("ip", .s "1.2.3.4"), ("country", .s "FR"), ("source", .s "offline"),
   ("timestamp", .t 0)]

/-- C7 auxiliary: store row and fresh cache entry for the same IP. -/
def c7ceState : SvcState :=
  { bareState with db := [("1.2.3.4", sampleRow)],
                   cache := [("1.2.3.4", c7ceEntry)] }

section AssocLemmas

variable {α : Type}

theorem aget_aset_self (l : List (String × α)) (k : String) (v : α) :
    aget (aset l k v) k = some v := by
  induction l with
  | nil => simp [aset, aget]
  | cons p rest ih =>
      obtain ⟨k', v'⟩ := p
      by_cases h : k = k'
      · simp [aset, h, aget]
      · simp [aset, h, aget, ih]

theorem aget_aset_ne (l : List (String × α)) (k k' : String) (v : α)
    (h : k' ≠ k) : aget (aset l k v) k' = aget l k' := by
  induction l with
  | nil => simp [aset, aget, h]
  | cons p rest ih =>
      obtain ⟨k0, v0⟩ := p
      by_cases h0 : k = k0
      · subst h0
        simp [aset, aget, h]
      · by_cases h1 : k' = k0 <;> simp [aset, aget, h0, h1, ih]

theorem mem_aset (l : List (String × α)) (k : String) (v : α) (p : String × α)
    (h : p ∈ aset l k v) : p = (k, v) ∨ p ∈ l := by
  induction l with
  | nil => simpa [aset] using h
  | cons q rest ih =>
      obtain ⟨k0, v0⟩ := q
      by_cases h0 : k = k0
      · subst h0
        simp [aset] at h
        rcases h with h | h
        · simp [h]
        · exact Or.inr (List.mem_cons_of_mem _ h)
      · simp [aset, h0] at h
        rcases h with h | h
        · exact Or.inr (by simp [h])
        · rcases ih h with h' | h'
          · exact Or.inl h'
          · exact Or.inr (List.mem_cons_of_mem _ h')

theorem aget_mem (l : List (String × α)) (k : String) (v : α)
    (h : aget l k = some v) : (k, v) ∈ l := by
  induction l with
  | nil => simp [aget] at h
  | cons q rest ih =>
      obtain ⟨k0, v0⟩ := q
      by_cases h0 : k = k0
      · simp [aget, h0] at h
        simp [h0, h]
      · simp [aget, h0] at h
        exact List.mem_cons_of_mem _ (ih h)

theorem aget_ne_none_iff (l : List (String × α)) (k : String) :
    aget l k ≠ none ↔ k ∈ l.map Prod.fst := by
  induction l with
  | nil => simp [aget]
  | cons q rest ih =>
      obtain ⟨k0, v0⟩ := q
      by_cases h0 : k = k0 <;> simp [aget, h0, ih]

theorem keys_aset (l : List (String × α)) (k : String) (v : α) (k' : String) :
    k' ∈ (aset l k v).map Prod.fst ↔ k' = k ∨ k' ∈ l.map Prod.fst := by
  induction l with
  | nil => simp [aset]
  | cons q rest ih =>
      obtain ⟨k0, v0⟩ := q
      by_cases h0 : k = k0
      · subst h0
        by_cases h1 : k' = k <;> simp [aset, h1]
      · by_cases h1 : k' = k0 <;> simp [aset, h0, h1, ih]

theorem keys_aset_nodup (l : List (String × α)) (k : String) (v : α)
    (h : (l.map Prod.fst).Nodup) : ((aset l k v).map Prod.fst).Nodup := by
  induction l with
  | nil => simp [aset]
  | cons q rest ih =>
      obtain ⟨k0, v0⟩ := q
      rw [List.map_cons, List.nodup_cons] at h
      by_cases h0 : k = k0
      · subst h0
        simpa [aset] using h
      · have h2 := ih h.2
        have h1 : k0 ∉ (aset rest k v).map Prod.fst := by
          rw [keys_aset]
          push_neg
          exact ⟨fun hc => h0 hc.symm, h.1⟩
        simp only [aset, if_neg h0, List.map_cons, List.nodup_cons]
        exact ⟨h1, h2⟩

theorem aget_adel_nodup (l : List (String × α)) (k : String)
    (h : (l.map Prod.fst).Nodup) : aget (adel l k) k = none := by
  induction l with
  | nil => simp [adel, aget]
  | cons q rest ih =>
      obtain ⟨k0, v0⟩ := q
      rw [List.map_cons, List.nodup_cons] at h
      by_cases h0 : k = k0
      · subst h0
        simp only [adel, if_true, eq_self_iff_true]
        cases hres : aget rest k with
        | none => rfl
        | some v =>
            exact absurd (List.mem_map_of_mem Prod.fst (aget_mem rest k v hres)) h.1
      · simp [adel, aget, h0, ih h.2]

end AssocLemmas

/-- C1 (counterexample): resolving the recognized private address 10.1.2.3
returns `source='private'` (the local-database tier's tag), not
`source='offline_private'` as claimed — while `country='Private'` does hold. -/
theorem c1_counterexample :
    aget (okDict c1run) "source" = some (.s "private") ∧
    aget (okDict c1run) "source" ≠ some (.s "offline_private") ∧
    aget (okDict c1run) "country" = some (.s "Private") := by
  decide

/-- C1 (amended): for each of the four recognized private-range addresses,
single-IP resolution returns the local-database tier's synthesized private
record with `source='private'` and `country='Private'`; the outcome is one
fixed function of the prior state that never consults the offline readers or
the online oracle (so no offline-database lookup and no network call occur),
and its only state effects are the store upsert and the `local_db_hits`
counter. -/
theorem c1_private_resolution (s : SvcState) (now : Nat) (ip : String)
    (hdb : s.dbFail = false)
    (hip : ip ∈ ["10.1.2.3", "172.20.5.5", "192.168.1.1", "127.0.0.1"]) :
    Enhanced.get_ip_info s now ip =
      .ok (LocalDB.privateDict ip,
           bumpLocalHits
             { s with db := LocalDB.store_ip_data s.db now ip (LocalDB.privateDict ip) }) ∧
    aget (LocalDB.privateDict ip) "source" = some (.s "private") ∧
    aget (LocalDB.privateDict ip) "country" = some (.s "Private") := by
  obtain ⟨db, cache, tok, ltok, ldb, cdb, cidb, onl, dbF, offF, svF, st⟩ := s
  simp only [List.mem_cons, List.not_mem_nil, or_false] at hip
  cases dbF
  · rcases hip with h | h | h | h <;> subst h <;> exact ⟨rfl, by decide, by decide⟩
  · simp at hdb

/-- C1 (witness): the amended theorem applied at the bare state and 10.1.2.3. -/
theorem c1_witness :
    bareState.dbFail = false ∧
    Enhanced.get_ip_info bareState 0 "10.1.2.3" =
      .ok (LocalDB.privateDict "10.1.2.3",
           bumpLocalHits
             { bareState with
                 db := LocalDB.store_ip_data bareState.db 0 "10.1.2.3"
                         (LocalDB.privateDict "10.1.2.3") }) :=
  ⟨rfl, (c1_private_resolution bareState 0 "10.1.2.3" rfl (by decide)).1⟩

/-- C5: `_store_ip_data` preserves the prior `query_count` plus one (the
`COALESCE((SELECT query_count ...), 0) + 1` subquery): an existing row with
count n is replaced by a row with count n + 1, and a fresh ip is inserted
with count 1. -/
theorem c5_upsert_query_count (db : DB) (now : Nat) (ip : String) (data : Dict) :
    (∀ row : Row, aget db ip = some row →
       ∃ row' : Row, aget (LocalDB.store_ip_data db now ip data) ip = some row' ∧
         row'.query_count = row.query_count + 1) ∧
    (aget db ip = none →
       ∃ row' : Row, aget (LocalDB.store_ip_data db now ip data) ip = some row' ∧
         row'.query_count = 1) := by
  constructor
  · intro row h
    simp only [LocalDB.store_ip_data, h]
    exact ⟨_, aget_aset_self .., rfl⟩
  · intro h
    simp only [LocalDB.store_ip_data, h]
    exact ⟨_, aget_aset_self .., rfl⟩

/-- C5 (witness): storing over a row with `query_count = 3` yields 4. -/
theorem c5_witness :
    ∃ row' : Row,
      aget (LocalDB.store_ip_data [("1.2.3.4", sampleRow)] 9 "1.2.3.4" []) "1.2.3.4" =
        some row' ∧ row'.query_count = sampleRow.query_count + 1 :=
  (c5_upsert_query_count [("1.2.3.4", sampleRow)] 9 "1.2.3.4" []).1 sampleRow rfl

/-- C10: because the replacing `INSERT OR REPLACE` omits the `first_seen`
column, SQLite refills it from its `CURRENT_TIMESTAMP` default: a subsequent
store write resets `first_seen` to the current time instead of preserving the
original (while still carrying the `query_count` forward). -/
theorem c10_first_seen_reset (db : DB) (now : Nat) (ip : String) (data : Dict)
    (row : Row) (h : aget db ip = some row) :
    ∃ row' : Row, aget (LocalDB.store_ip_data db now ip data) ip = some row' ∧
      row'.first_seen = now ∧ row'.query_count = row.query_count + 1 ∧
      (row.first_seen ≠ now → row'.first_seen ≠ row.first_seen) := by
  simp only [LocalDB.store_ip_data, h]
  exact ⟨_, aget_aset_self .., rfl, rfl, fun hne hc => hne hc.symm⟩

/-- C10 (witness): re-storing 1.2.3.4 at time 9 resets `first_seen` from 2 to 9. -/
theorem c10_witness :
    ∃ row' : Row,
      aget (LocalDB.store_ip_data [("1.2.3.4", sampleRow)] 9 "1.2.3.4" []) "1.2.3.4" =
        some row' ∧ row'.first_seen = 9 ∧
        row'.query_count = sampleRow.query_count + 1 ∧
        (sampleRow.first_seen ≠ 9 → row'.first_seen ≠ sampleRow.first_seen) :=
  c10_first_seen_reset [("1.2.3.4", sampleRow)] 9 "1.2.3.4" [] sampleRow rfl

theorem populated_fixDefault_self (d : Dict) (p : String × String)
    (hp : p.2 ≠ "") : populated (LocalDB.fixDefault d p) p.1 := by
  unfold LocalDB.fixDefault
  split
  next => exact ⟨.s p.2, aget_aset_self .., by simpa using hp, by simp⟩
  next v hv =>
    split
    next => exact ⟨.s p.2, aget_aset_self .., by simpa using hp, by simp⟩
    next hbad =>
      push_neg at hbad
      exact ⟨v, hv, hbad.1, hbad.2⟩

theorem populated_fixDefault_mono (d : Dict) (p : String × String) (k : String)
    (hp : p.2 ≠ "") (h : populated d k) :
    populated (LocalDB.fixDefault d p) k := by
  obtain ⟨v, hv, hv1, hv2⟩ := h
  by_cases hk : k = p.1
  · subst hk
    exact populated_fixDefault_self d p hp
  · unfold LocalDB.fixDefault
    split
    next => exact ⟨v, by rwa [aget_aset_ne _ _ _ _ hk], hv1, hv2⟩
    next w hv' =>
      split
      next => exact ⟨v, by rwa [aget_aset_ne _ _ _ _ hk], hv1, hv2⟩
      next => exact ⟨v, hv, hv1, hv2⟩

theorem populated_foldl_fix_mono (L : List (String × String)) (d : Dict)
    (k : String) (hL : ∀ p ∈ L, p.2 ≠ "") (h : populated d k) :
    populated (L.foldl LocalDB.fixDefault d) k := by
  induction L generalizing d with
  | nil => simpa using h
  | cons q rest ih =>
      rw [List.foldl_cons]
      exact ih _ (fun p hp => hL p (List.mem_cons_of_mem _ hp))
        (populated_fixDefault_mono d q k (hL q (List.mem_cons_self ..)) h)

theorem populated_foldl_fix (L : List (String × String)) (d : Dict)
    (hL : ∀ p ∈ L, p.2 ≠ "") :
    ∀ p ∈ L, populated (L.foldl LocalDB.fixDefault d) p.1 := by
  induction L generalizing d with
  | nil => simp
  | cons q rest ih =>
      intro p hp
      rw [List.foldl_cons]
      rcases List.mem_cons.mp hp with h | h
      · subst h
        exact populated_foldl_fix_mono rest (LocalDB.fixDefault d p) p.1
          (fun q hq => hL q (List.mem_cons_of_mem _ hq))
          (populated_fixDefault_self d p (hL p (List.mem_cons_self ..)))
      · exact ih _ (fun q hq => hL q (List.mem_cons_of_mem _ hq)) p h

theorem populated_fillDefaults (d : Dict) :
    ∀ k ∈ stringFields, populated (LocalDB.fillDefaults d) k := by
  intro k hk
  have hmap : stringFields = LocalDB.defaultFields.map Prod.fst := by decide
  rw [hmap] at hk
  obtain ⟨p, hp, rfl⟩ := List.mem_map.mp hk
  exact populated_foldl_fix LocalDB.defaultFields d (by decide) p hp

theorem populated_deriveIsp (d : Dict)
    (hall : ∀ k ∈ stringFields, populated d k) :
    ∀ k ∈ stringFields, populated (LocalDB.deriveIsp d) k := by
  intro k hk
  unfold LocalDB.deriveIsp
  by_cases h1 : aget d "isp" = some (.s "Unknown") ∧ aget d "org" ≠ some (.s "Unknown")
  · rw [if_pos h1]
    by_cases hkisp : k = "isp"
    · subst hkisp
      obtain ⟨v, hv, hv1, hv2⟩ := hall "org" (by decide)
      rw [hv]
      exact ⟨v, aget_aset_self .., hv1, hv2⟩
    · obtain ⟨v, hv, hv1, hv2⟩ := hall k hk
      exact ⟨v, by rwa [aget_aset_ne _ _ _ _ hkisp], hv1, hv2⟩
  · rw [if_neg h1]
    by_cases h2 : aget d "isp" = some (.s "Unknown") ∧ aget d "as_name" ≠ some (.s "Unknown")
    · rw [if_pos h2]
      by_cases hkisp : k = "isp"
      · subst hkisp
        refine ⟨_, aget_aset_self .., ?_, by simp⟩
        intro hc
        have hlen := congrArg String.length (Val.s.inj hc)
        simp [String.length_append,
          show (" (" : String).length = 2 from rfl] at hlen
      · obtain ⟨v, hv, hv1, hv2⟩ := hall k hk
        exact ⟨v, by rwa [aget_aset_ne _ _ _ _ hkisp], hv1, hv2⟩
    · rw [if_neg h2]
      exact hall k hk

/-- C2 (counterexample): with only the city fallback database present,
resolving 5.5.5.5 succeeds and returns the offline record — which carries
`city='Munich'` but has *no* `country` key at all (and no `isp` key either):
a returned record with missing fields. -/
theorem c2_counterexample :
    raised (Enhanced.get_ip_info c2ceState 0 "5.5.5.5") = false ∧
    aget (okDict (Enhanced.get_ip_info c2ceState 0 "5.5.5.5")) "city" =
      some (.s "Munich") ∧
    aget (okDict (Enhanced.get_ip_info c2ceState 0 "5.5.5.5")) "country" = none ∧
    aget (okDict (Enhanced.get_ip_info c2ceState 0 "5.5.5.5")) "isp" = none := by
  decide

/-- C2 (amended): the all-fields-populated guarantee holds for the records the
local-database tier computes afresh: for every nonempty, non-private input IP
absent from the durable store, `LocalIPDatabase.get_ip_info` returns the
default-filled record, every string field of which is populated (present and
neither empty nor null); and when that record has a known country, the
top-level resolution returns exactly it.  (Records served from the offline or
fallback paths are not covered: they can omit `isp`, and even `country`, as
the counterexample shows; the empty input returns an empty record.) -/
theorem c2_fresh_records_populated (s : SvcState) (now : Nat) (ip : String)
    (hdb : s.dbFail = false) (hne : ip ≠ "")
    (hpriv : Enhanced.is_private_ip ip = false)
    (hmiss : aget s.db ip = none) :
    LocalDB.get_ip_info s now ip =
      .ok (LocalDB.externalDict s ip,
           { s with db := LocalDB.store_ip_data s.db now ip (LocalDB.externalDict s ip) }) ∧
    (∀ k ∈ stringFields, populated (LocalDB.externalDict s ip) k) ∧
    (aget (LocalDB.externalDict s ip) "country" ≠ some (.s "Unknown") →
      Enhanced.get_ip_info s now ip =
        .ok (LocalDB.externalDict s ip,
             bumpLocalHits
               { s with db := LocalDB.store_ip_data s.db now ip (LocalDB.externalDict s ip) })) := by
  have hloc : LocalDB.get_ip_info s now ip =
      .ok (LocalDB.externalDict s ip,
           { s with db := LocalDB.store_ip_data s.db now ip (LocalDB.externalDict s ip) }) := by
    unfold LocalDB.get_ip_info
    rw [if_neg hne, if_neg (by simp [hpriv]), if_neg (by simp [hdb]), hmiss]
  have hpop : ∀ k ∈ stringFields, populated (LocalDB.externalDict s ip) k := by
    unfold LocalDB.externalDict
    exact populated_deriveIsp _ (populated_fillDefaults _)
  refine ⟨hloc, hpop, fun hcountry => ?_⟩
  have hne' : LocalDB.externalDict s ip ≠ [] := by
    intro hc
    obtain ⟨v, hv, _, _⟩ := hpop "country" (by decide)
    rw [hc] at hv
    simp [aget] at hv
  unfold Enhanced.get_ip_info
  rw [if_neg hne, hloc]
  simp only [Except.bind, bind]
  rw [if_pos ⟨hne', hcountry⟩]

/-- C2 (witness): the amended theorem applied at the lite-database state and
8.8.8.8 — the fresh record has a populated `country` field, and the top-level
resolution returns that record. -/
theorem c2_witness :
    populated (LocalDB.externalDict c2wState "8.8.8.8") "country" ∧
    Enhanced.get_ip_info c2wState 0 "8.8.8.8" =
      .ok (LocalDB.externalDict c2wState "8.8.8.8",
           bumpLocalHits
             { c2wState with
                 db := LocalDB.store_ip_data c2wState.db 0 "8.8.8.8"
                         (LocalDB.externalDict c2wState "8.8.8.8") }) :=
  ⟨(c2_fresh_records_populated c2wState 0 "8.8.8.8" rfl (by decide) (by decide)
      rfl).2.1 "country" (by decide),
   (c2_fresh_records_populated c2wState 0 "8.8.8.8" rfl (by decide) (by decide)
      rfl).2.2 (by decide)⟩

theorem localdb_get_ip_info_ok (s : SvcState) (now : Nat) (ip : String)
    (hdb : s.dbFail = false) :
    ∃ d db', LocalDB.get_ip_info s now ip = .ok (d, { s with db := db' }) := by
  unfold LocalDB.get_ip_info
  by_cases h0 : ip = ""
  · rw [if_pos h0]
    exact ⟨[], s.db, rfl⟩
  · rw [if_neg h0]
    by_cases h1 : Enhanced.is_private_ip ip = true
    · rw [if_pos h1]
      unfold LocalDB.storeE
      rw [if_neg (by simp [hdb])]
      exact ⟨_, _, rfl⟩
    · rw [if_neg h1, if_neg (by simp [hdb])]
      cases hrow : aget s.db ip with
      | some row => exact ⟨_, _, rfl⟩
      | none => exact ⟨_, _, rfl⟩

theorem get_offline_info_state (s : SvcState) (ip : String) :
    (Enhanced.get_offline_info s ip).2 = s ∨
    (Enhanced.get_offline_info s ip).2 = bumpErrors s := by
  unfold Enhanced.get_offline_info
  by_cases h0 : Enhanced.is_private_ip ip = true
  · rw [if_pos h0]
    exact Or.inl rfl
  · rw [if_neg h0]
    by_cases h1 : s.offlineFail = true
    · rw [if_pos h1]
      exact Or.inr rfl
    · rw [if_neg h1]
      exact Or.inl rfl

theorem get_offline_info_dbFail (s : SvcState) (ip : String) :
    (Enhanced.get_offline_info s ip).2.dbFail = s.dbFail := by
  rcases get_offline_info_state s ip with h | h <;> simp [h, bumpErrors]

theorem resolveLower_ok (s : SvcState) (now : Nat) (ip : String)
    (hdb : s.dbFail = false) :
    ∃ r s', Enhanced.resolveLower s now ip = .ok (r, s') := by
  have hdbo : (Enhanced.get_offline_info s ip).2.dbFail = false := by
    rw [get_offline_info_dbFail]
    exact hdb
  unfold Enhanced.resolveLower
  generalize (Enhanced.get_offline_info s ip).1 = off
  generalize hS : (Enhanced.get_offline_info s ip).2 = s3 at hdbo ⊢
  dsimp only
  repeat' split
  all_goals first
    | exact ⟨_, _, rfl⟩
    | (unfold LocalDB.storeE
       rw [if_neg (by simp [hdbo])]
       exact ⟨_, _, rfl⟩)

/-- C3 (counterexample): a failure of the durable SQLite store *is* propagated
to the resolution caller as an uncaught exception — the call returns no record
at all, contradicting the claim that no tier failure ever surfaces. -/
theorem c3_counterexample :
    raised (Enhanced.get_ip_info { bareState with dbFail := true } 0 "1.2.3.4") = true := by
  decide

/-- C3 (amended): failures of the ephemeral cache save, the offline databases
and the online API are contained — with the SQLite store healthy
(`dbFail = false`) and every cache timestamp a datetime value, single-IP
resolution always returns a record, for any injected offline/save failures and
any oracle behaviour; SQLite store failures, by contrast, propagate (the
local-database calls are not wrapped), as the counterexample shows.  (A cache
entry stamped with a *string* timestamp — which the single-IP path itself
writes — also makes the age comparison raise a TypeError, hence the
timestamp hypothesis.) -/
theorem c3_failure_containment (s : SvcState) (now : Nat) (ip : String)
    (hdb : s.dbFail = false) (hts : cacheTimesOk s.cache) :
    ∃ r s', Enhanced.get_ip_info s now ip = .ok (r, s') := by
  unfold Enhanced.get_ip_info
  by_cases h0 : ip = ""
  · rw [if_pos h0]
    exact ⟨[], s, rfl⟩
  · rw [if_neg h0]
    obtain ⟨d, db', hloc⟩ := localdb_get_ip_info_ok s now ip hdb
    rw [hloc]
    simp only [bind, Except.bind]
    by_cases hcond : d ≠ [] ∧ aget d "country" ≠ some (.s "Unknown")
    · rw [if_pos hcond]
      exact ⟨_, _, rfl⟩
    · rw [if_neg hcond]
      have hdb1 : ({ s with db := db' } : SvcState).dbFail = false := hdb
      cases hc : aget ({ s with db := db' } : SvcState).cache ip with
      | none => exact resolveLower_ok _ now ip hdb1
      | some c =>
          dsimp only
          have hfr : ∃ b, Enhanced.cacheFresh now c = .ok b := by
            unfold Enhanced.cacheFresh
            cases hv : aget c "timestamp" with
            | none => exact ⟨false, rfl⟩
            | some v =>
                have hmem : (ip, c) ∈ s.cache := aget_mem _ _ _ hc
                obtain ⟨T, rfl⟩ := hts (ip, c) hmem v hv
                exact ⟨_, rfl⟩
          obtain ⟨b, hcf⟩ := hfr
          rw [hcf]
          simp only [bind, Except.bind]
          cases b
          · rw [if_neg (by simp)]
            exact resolveLower_ok _ now ip hdb1
          · rw [if_pos rfl]
            exact ⟨_, _, rfl⟩

/-- C3 (witness): the amended theorem at the bare state — the resolution
returns a record. -/
theorem c3_witness :
    ∃ r s', Enhanced.get_ip_info bareState 0 "8.8.8.8" = .ok (r, s') :=
  c3_failure_containment bareState 0 "8.8.8.8" rfl (by simp [cacheTimesOk, bareState])

theorem aset_ne_nil {α : Type} (l : List (String × α)) (k : String) (v : α) :
    aset l k v ≠ [] := by
  cases l with
  | nil => simp [aset]
  | cons p rest =>
      obtain ⟨k0, v0⟩ := p
      by_cases h : k = k0 <;> simp [aset, h]

theorem localdb_row_hit (s : SvcState) (now : Nat) (ip : String) (row : Row)
    (hne : ip ≠ "") (hpriv : Enhanced.is_private_ip ip = false)
    (hdb : s.dbFail = false) (hrow : aget s.db ip = some row) :
    LocalDB.get_ip_info s now ip =
      .ok (aset (LocalDB.rowToDict row) "from_cache" (.b true),
           { s with db := aset s.db ip (LocalDB.bumpRow row now) }) := by
  unfold LocalDB.get_ip_info
  rw [if_neg hne, if_neg (by simp [hpriv]), if_neg (by simp [hdb]), hrow]

/-- A store hit with a known country returns the stored row (pre-update, with
`from_cache=True`) and bumps its counters in the table. -/
theorem enhanced_row_hit (s : SvcState) (now : Nat) (ip : String) (row : Row)
    (hne : ip ≠ "") (hpriv : Enhanced.is_private_ip ip = false)
    (hdb : s.dbFail = false) (hrow : aget s.db ip = some row)
    (hcountry : row.country ≠ .s "Unknown") :
    Enhanced.get_ip_info s now ip =
      .ok (aset (LocalDB.rowToDict row) "from_cache" (.b true),
           bumpLocalHits { s with db := aset s.db ip (LocalDB.bumpRow row now) }) := by
  unfold Enhanced.get_ip_info
  rw [if_neg hne, localdb_row_hit s now ip row hne hpriv hdb hrow]
  simp only [bind, Except.bind]
  rw [if_pos ⟨aset_ne_nil _ _ _, by
    show ¬(some row.country = some (.s "Unknown"))
    simpa using hcountry⟩]

theorem rowToDict_agree (row : Row) (t2 : Nat) (k : String)
    (h1 : k ≠ "query_count") (h2 : k ≠ "last_updated") :
    aget (aset (LocalDB.rowToDict (LocalDB.bumpRow row t2)) "from_cache" (.b true)) k =
    aget (aset (LocalDB.rowToDict row) "from_cache" (.b true)) k := by
  rw [show aset (LocalDB.rowToDict (LocalDB.bumpRow row t2)) "from_cache" (.b true) =
      aset (aset (aset (LocalDB.rowToDict row) "from_cache" (.b true))
        "last_updated" (.t t2)) "query_count" (.i (Int.ofNat (row.query_count + 1)))
      from rfl,
    aget_aset_ne _ _ _ _ h1, aget_aset_ne _ _ _ _ h2]

/-- C4 (amended): from the second resolution onward repeated resolution of the
same public, known-country IP is idempotent in the claimed sense: two
successive store-hit resolutions return records with identical field values
except `query_count` (up by one, reported pre-increment) and `last_updated`
(advancing, reported one step behind the wall clock).  Between the *first*
resolution and the second the claim fails — the second record gains whole new
fields (`from_cache`, `query_count`, `first_seen`, `last_updated`) that the
first record does not carry at all, as the counterexample shows. -/
theorem c4_repeat_resolution (s : SvcState) (ip : String) (row : Row)
    (t2 t3 : Nat) (hdb : s.dbFail = false) (hne : ip ≠ "")
    (hpriv : Enhanced.is_private_ip ip = false)
    (hrow : aget s.db ip = some row)
    (hcountry : row.country ≠ .s "Unknown")
    (hadv : row.last_updated < t2) :
    ∃ R2 R3 s2 s3,
      Enhanced.get_ip_info s t2 ip = .ok (R2, s2) ∧
      Enhanced.get_ip_info s2 t3 ip = .ok (R3, s3) ∧
      (∀ k, k ≠ "query_count" → k ≠ "last_updated" → aget R3 k = aget R2 k) ∧
      aget R2 "query_count" = some (.i row.query_count) ∧
      aget R3 "query_count" = some (.i (row.query_count + 1)) ∧
      aget R2 "last_updated" = some (.t row.last_updated) ∧
      aget R3 "last_updated" = some (.t t2) ∧
      row.last_updated < t2 := by
  refine ⟨_, _, _, _,
    enhanced_row_hit s t2 ip row hne hpriv hdb hrow hcountry,
    enhanced_row_hit
      (bumpLocalHits { s with db := aset s.db ip (LocalDB.bumpRow row t2) })
      t3 ip (LocalDB.bumpRow row t2) hne hpriv hdb (aget_aset_self ..) hcountry,
    fun k h1 h2 => rowToDict_agree row t2 k h1 h2,
    rfl, rfl, rfl, rfl, hadv⟩

/-- C4 (witness): the amended theorem applied at a one-row store. -/
theorem c4_witness :
    ∃ R2 R3 s2 s3,
      Enhanced.get_ip_info c4wState 5 "1.2.3.4" = .ok (R2, s2) ∧
      Enhanced.get_ip_info s2 9 "1.2.3.4" = .ok (R3, s3) ∧
      (∀ k, k ≠ "query_count" → k ≠ "last_updated" → aget R3 k = aget R2 k) ∧
      aget R2 "query_count" = some (.i sampleRow.query_count) ∧
      aget R3 "query_count" = some (.i (sampleRow.query_count + 1)) ∧
      aget R2 "last_updated" = some (.t sampleRow.last_updated) ∧
      aget R3 "last_updated" = some (.t 5) ∧
      sampleRow.last_updated < 5 :=
  c4_repeat_resolution c4wState "1.2.3.4" sampleRow 5 9 rfl (by decide)
    (by decide) rfl (by decide) (by decide)

/-- C4 (counterexample): the record returned by the *second* resolution of
8.8.8.8 is not "identical except query_count and last_updated" to the first:
it carries `from_cache=True` and a `query_count` field, neither of which the
first record has at all. -/
theorem c4_counterexample :
    aget (okDict c4first) "from_cache" = none ∧
    aget (okDict c4second) "from_cache" = some (.b true) ∧
    aget (okDict c4first) "query_count" = none ∧
    aget (okDict c4second) "query_count" = some (.i 1) ∧
    aget (okDict c4second) "country" = aget (okDict c4first) "country" := by
  decide

/-- C7 (amended): the TTL boundary governs the cache *tier*: provided the
durable-store tier does not resolve the IP (its record has country "Unknown")
and the cached entry's timestamp is a datetime value T, the lookup is served
from the cache (bumping `cache_hits`) iff `now - T < 7 days`; at
`now - T ≥ 7 days` the entry is evicted and the lower tiers are consulted on
the evicted cache.  As stated the claim is false: when the durable store holds
a known-country row, a lookup is served from the store even though the cache
entry is fresh (see the counterexample). -/
theorem c7_ttl_boundary (s : SvcState) (now : Nat) (ip : String) (r0 : Dict)
    (s1 : SvcState) (c : Dict) (T : Nat)
    (hne : ip ≠ "")
    (hlocal : LocalDB.get_ip_info s now ip = .ok (r0, s1))
    (hunk : aget r0 "country" = some (.s "Unknown"))
    (hc : aget s1.cache ip = some c)
    (hT : aget c "timestamp" = some (.t T)) :
    (now - T < ttlSeconds →
       Enhanced.get_ip_info s now ip = .ok (c, bumpCacheHits s1)) ∧
    (ttlSeconds ≤ now - T →
       Enhanced.get_ip_info s now ip =
         Enhanced.resolveLower { s1 with cache := adel s1.cache ip } now ip ∧
       ((s1.cache.map Prod.fst).Nodup → aget (adel s1.cache ip) ip = none)) := by
  have hbase : Enhanced.get_ip_info s now ip =
      (do
        let fresh ← Enhanced.cacheFresh now c
        if fresh then .ok (c, bumpCacheHits s1)
        else Enhanced.resolveLower { s1 with cache := adel s1.cache ip } now ip) := by
    unfold Enhanced.get_ip_info
    rw [if_neg hne, hlocal]
    simp only [bind, Except.bind]
    rw [if_neg (fun h => h.2 hunk), hc]
  constructor
  · intro hfr
    rw [hbase]
    unfold Enhanced.cacheFresh
    rw [hT]
    simp only [bind, Except.bind]
    rw [if_pos (decide_eq_true hfr)]
  · intro hst
    refine ⟨?_, fun hnd => aget_adel_nodup _ _ hnd⟩
    rw [hbase]
    unfold Enhanced.cacheFresh
    rw [hT]
    simp only [bind, Except.bind]
    rw [if_neg (by simp only [decide_eq_true_eq]; omega)]

/-- C7 (witness): at `now = 5`, `T = 0` (fresh), the lookup is served from the
cache. -/
theorem c7_witness :
    5 - 0 < ttlSeconds ∧
    Enhanced.get_ip_info c7wState 5 "9.9.9.9" =
      .ok (c7wEntry, bumpCacheHits (okState c7wLocal)) :=
  ⟨by decide,
   (c7_ttl_boundary c7wState 5 "9.9.9.9" (okDict c7wLocal) (okState c7wLocal)
      c7wEntry 0 (by decide) (by rfl) (by decide) (by decide) (by decide)).1
     (by decide)⟩

/-- C7 (counterexample): the cached entry for 1.2.3.4 is fresh
(`now - T = 5 < 7 days`), yet the lookup is *not* served from the ephemeral
cache — the durable store resolves it first: the returned record is not the
cached entry and the `cache_hits` counter stays at zero, refuting the
"if and only if" as stated. -/
theorem c7_counterexample :
    5 - 0 < ttlSeconds ∧
    aget c7ceState.cache "1.2.3.4" = some c7ceEntry ∧
    aget c7ceEntry "timestamp" = some (.t 0) ∧
    okDict (Enhanced.get_ip_info c7ceState 5 "1.2.3.4") ≠ c7ceEntry ∧
    (okState (Enhanced.get_ip_info c7ceState 5 "1.2.3.4")).stats.cache_hits = 0 := by
  decide

theorem save_cache_db (s : SvcState) : (save_cache s).db = s.db := by
  unfold save_cache
  split <;> rfl

theorem save_cache_cache (s : SvcState) : (save_cache s).cache = s.cache := by
  unfold save_cache
  split <;> rfl

theorem get_offline_info_db (s : SvcState) (ip : String) :
    (Enhanced.get_offline_info s ip).2.db = s.db := by
  rcases get_offline_info_state s ip with h | h <;> simp [h, bumpErrors]

theorem get_offline_info_cache (s : SvcState) (ip : String) :
    (Enhanced.get_offline_info s ip).2.cache = s.cache := by
  rcases get_offline_info_state s ip with h | h <;> simp [h, bumpErrors]

theorem offlineCore_bare (s : SvcState) (ip : String) (h1 : s.liteDb = none)
    (h2 : s.countryDb = none) (h3 : s.cityDb = none) :
    Enhanced.offlineCore s ip = none := by
  unfold Enhanced.offlineCore Enhanced.offlineFallbackSection
  rw [h1, h2, h3]
  simp [aget, aset]
  simp [Enhanced.meaningful, aget]

theorem fillDefaults_base_eval0 (ip : String) :
    LocalDB.fillDefaults [("ip", .s ip), ("is_private", .i 0)] =
    [("ip", .s ip), ("is_private", .i 0), ("country", .s "Unknown"),
     ("country_code", .s "XX"), ("country_name", .s "Unknown"),
     ("continent", .s "Unknown"), ("continent_code", .s "XX"),
     ("region", .s "Unknown"), ("city", .s "Unknown"), ("asn", .s "Unknown"),
     ("as_name", .s "Unknown"), ("as_domain", .s "unknown"),
     ("org", .s "Unknown"), ("isp", .s "Unknown"), ("timezone", .s "Unknown"),
     ("source", .s "unknown")] := by
  simp [LocalDB.fillDefaults, LocalDB.defaultFields, LocalDB.fixDefault,
    aget, aset]

theorem fillDefaults_base_eval (ip : String) :
    LocalDB.deriveIsp
      (LocalDB.fillDefaults [("ip", .s ip), ("is_private", .i 0)]) =
    unknownFreshDict ip := by
  rw [fillDefaults_base_eval0]
  simp [LocalDB.deriveIsp, aget, aset, unknownFreshDict]

theorem externalDict_bare (s : SvcState) (ip : String) (h1 : s.liteDb = none)
    (h2 : s.localToken = none) :
    LocalDB.externalDict s ip = unknownFreshDict ip := by
  unfold LocalDB.externalDict LocalDB.get_mmdb_data LocalDB.get_ipinfo_data
  rw [h1, h2]
  exact fillDefaults_base_eval ip

theorem store_noFallback (db : DB) (now : Nat) (ip : String) (data : Dict)
    (hnf : noFallbackRows db) (hsrc : aget data "source" ≠ some (.s "fallback")) :
    noFallbackRows (LocalDB.store_ip_data db now ip data) := by
  intro p hp
  rcases mem_aset _ _ _ _ hp with h | h
  · rw [h]
    show (aget data "source").getD (.s "unknown") ≠ .s "fallback"
    cases hv : aget data "source" with
    | none => simp
    | some v =>
        rw [hv] at hsrc
        simpa using hsrc
  · exact hnf p h

theorem dbInv_aset (db : DB) (ip : String) (row : Row) (hinv : dbInv db)
    (h1 : Enhanced.is_private_ip ip = false → row.country = .s "Unknown")
    (h2 : row.source ≠ .s "fallback") : dbInv (aset db ip row) := by
  constructor
  · intro p hp hpriv
    rcases mem_aset _ _ _ _ hp with h | h
    · rw [h] at hpriv ⊢
      exact h1 hpriv
    · exact hinv.1 p h hpriv
  · intro p hp
    rcases mem_aset _ _ _ _ hp with h | h
    · rw [h]
      exact h2
    · exact hinv.2 p h

theorem localdb_empty (s : SvcState) (now : Nat) :
    LocalDB.get_ip_info s now "" = .ok ([], s) := by
  unfold LocalDB.get_ip_info
  rw [if_pos rfl]

theorem localdb_private (s : SvcState) (now : Nat) (ip : String)
    (hdbf : s.dbFail = false) (hp : Enhanced.is_private_ip ip = true) :
    LocalDB.get_ip_info s now ip =
      .ok (LocalDB.privateDict ip,
           { s with db := LocalDB.store_ip_data s.db now ip (LocalDB.privateDict ip) }) := by
  have hne : ip ≠ "" := by
    intro hc
    rw [hc] at hp
    exact absurd hp (by decide)
  unfold LocalDB.get_ip_info LocalDB.storeE
  rw [if_neg hne, if_pos hp, if_neg (by simp [hdbf])]
  rfl

theorem localdb_external (s : SvcState) (now : Nat) (ip : String)
    (hne : ip ≠ "") (hpf : Enhanced.is_private_ip ip = false)
    (hdbf : s.dbFail = false) (hmiss : aget s.db ip = none) :
    LocalDB.get_ip_info s now ip =
      .ok (LocalDB.externalDict s ip,
           { s with db := LocalDB.store_ip_data s.db now ip (LocalDB.externalDict s ip) }) := by
  unfold LocalDB.get_ip_info
  rw [if_neg hne, if_neg (by simp [hpf]), if_neg (by simp [hdbf]), hmiss]

/-- The common tail of a bare-configuration `phaseAStep` on a non-private IP
that the store tier did not resolve: the cache is empty and the offline
databases are absent, so the IP joins the needs-online list and the state is
whatever the local tier left. -/
theorem phaseAStep_nonpriv_tail (now : Nat) (ip : String) (res : Results)
    (onl : List String) (s : SvcState) (lr : Dict) (s1 : SvcState)
    (hpf : Enhanced.is_private_ip ip = false)
    (hloceq : LocalDB.get_ip_info s now ip = .ok (lr, s1))
    (hnothit : ¬(lr ≠ [] ∧ aget lr "country" ≠ some (.s "Unknown")))
    (hb1 : bareLike s1) :
    Enhanced.phaseAStep now ip res onl s = .ok (res, onl ++ [ip], s1) := by
  obtain ⟨htok, hltok, hlite, hctry, hcity, hdbf, hoff, hcache, hinv⟩ := hb1
  have hoffeq : Enhanced.get_offline_info s1 ip = (none, s1) := by
    unfold Enhanced.get_offline_info
    rw [if_neg (by simp [hpf]), if_neg (by simp [hoff]),
      offlineCore_bare s1 ip hlite hctry hcity]
  unfold Enhanced.phaseAStep
  rw [hloceq]
  simp only [bind, Except.bind]
  rw [if_neg hnothit, hcache]
  simp only [aget]
  rw [hoffeq]

theorem phaseAStep_bare (now : Nat) (ip : String) (res : Results)
    (onl : List String) (s : SvcState) (hb : bareLike s) :
    ∃ s', Enhanced.phaseAStep now ip res onl s =
        .ok ((if Enhanced.is_private_ip ip then aset res ip (LocalDB.privateDict ip)
              else res),
             (if Enhanced.is_private_ip ip then onl else onl ++ [ip]),
             s') ∧ bareLike s' := by
  obtain ⟨htok, hltok, hlite, hctry, hcity, hdbf, hoff, hcache, hinv⟩ := hb
  by_cases hp : Enhanced.is_private_ip ip = true
  · refine ⟨bumpLocalHits
      { s with db := LocalDB.store_ip_data s.db now ip (LocalDB.privateDict ip) },
      ?_, ?_⟩
    · simp only [hp, if_true]
      unfold Enhanced.phaseAStep
      rw [localdb_private s now ip hdbf hp]
      simp only [bind, Except.bind]
      rw [if_pos ⟨by simp [LocalDB.privateDict], by
        show some (Val.s "Private") ≠ some (Val.s "Unknown")
        decide⟩]
    · refine ⟨htok, hltok, hlite, hctry, hcity, hdbf, hoff, hcache, ?_⟩
      show dbInv (LocalDB.store_ip_data s.db now ip (LocalDB.privateDict ip))
      refine dbInv_aset s.db ip _ hinv (fun hf => ?_) ?_
      · rw [hf] at hp
        exact absurd hp (by decide)
      · show Val.s "private" ≠ Val.s "fallback"
        decide
  · have hpf : Enhanced.is_private_ip ip = false := by
      revert hp
      cases Enhanced.is_private_ip ip <;> simp
    simp only [hpf, if_false, Bool.false_eq_true]
    by_cases h0 : ip = ""
    · subst h0
      exact ⟨s, phaseAStep_nonpriv_tail now "" res onl s [] s hpf
        (localdb_empty s now) (by simp) ⟨htok, hltok, hlite, hctry, hcity, hdbf, hoff, hcache, hinv⟩,
        ⟨htok, hltok, hlite, hctry, hcity, hdbf, hoff, hcache, hinv⟩⟩
    · cases hrow : aget s.db ip with
      | some row =>
          have hcu : row.country = .s "Unknown" :=
            hinv.1 (ip, row) (aget_mem _ _ _ hrow) hpf
          have hb1 : bareLike { s with db := aset s.db ip (LocalDB.bumpRow row now) } :=
            ⟨htok, hltok, hlite, hctry, hcity, hdbf, hoff, hcache,
             dbInv_aset s.db ip _ hinv (fun _ => hcu) (hinv.2 (ip, row) (aget_mem _ _ _ hrow))⟩
          refine ⟨_, phaseAStep_nonpriv_tail now ip res onl s _ _ hpf
            (localdb_row_hit s now ip row h0 hpf hdbf hrow) ?_ hb1, hb1⟩
          intro hcond
          exact hcond.2 (by
            show some row.country = some (.s "Unknown")
            rw [hcu])
      | none =>
          have hext : LocalDB.externalDict s ip = unknownFreshDict ip :=
            externalDict_bare s ip hlite hltok
          have hb1 : bareLike
              { s with db := LocalDB.store_ip_data s.db now ip (LocalDB.externalDict s ip) } := by
            refine ⟨htok, hltok, hlite, hctry, hcity, hdbf, hoff, hcache, ?_⟩
            show dbInv (LocalDB.store_ip_data s.db now ip (LocalDB.externalDict s ip))
            rw [hext]
            refine dbInv_aset s.db ip _ hinv (fun _ => ?_) ?_
            · rfl
            · show Val.s "unknown" ≠ Val.s "fallback"
              decide
          refine ⟨_, phaseAStep_nonpriv_tail now ip res onl s _ _ hpf
            (localdb_external s now ip h0 hpf hdbf hrow) ?_ hb1, hb1⟩
          intro hcond
          refine hcond.2 ?_
          rw [hext]
          rfl

theorem phaseA_bare (now : Nat) (ips : List String) :
    ∀ (res : Results) (onl : List String) (s : SvcState), bareLike s →
    ∃ s', Enhanced.phaseA now ips res onl s =
        .ok (privAdd res ips,
             onl ++ ips.filter (fun ip => !Enhanced.is_private_ip ip), s') ∧
      bareLike s' := by
  induction ips with
  | nil =>
      intro res onl s hb
      exact ⟨s, by simp [Enhanced.phaseA, privAdd], hb⟩
  | cons ip rest ih =>
      intro res onl s hb
      obtain ⟨s1, hstep, hb1⟩ := phaseAStep_bare now ip res onl s hb
      by_cases hp : Enhanced.is_private_ip ip = true
      · rw [if_pos hp, if_pos hp] at hstep
        obtain ⟨s', hrec, hb'⟩ := ih (aset res ip (LocalDB.privateDict ip)) onl s1 hb1
        refine ⟨s', ?_, hb'⟩
        unfold Enhanced.phaseA
        rw [hstep]
        simp only [bind, Except.bind]
        rw [hrec]
        have hpa : privAdd res (ip :: rest) =
            privAdd (aset res ip (LocalDB.privateDict ip)) rest := by
          simp [privAdd, hp]
        have hfl : (ip :: rest).filter (fun x => !Enhanced.is_private_ip x) =
            rest.filter (fun x => !Enhanced.is_private_ip x) := by
          simp [hp]
        rw [hpa, hfl]
      · rw [if_neg hp, if_neg hp] at hstep
        obtain ⟨s', hrec, hb'⟩ := ih res (onl ++ [ip]) s1 hb1
        refine ⟨s', ?_, hb'⟩
        unfold Enhanced.phaseA
        rw [hstep]
        simp only [bind, Except.bind]
        rw [hrec]
        have hpa : privAdd res (ip :: rest) = privAdd res rest := by
          simp [privAdd, hp]
        have hpf : Enhanced.is_private_ip ip = false := by
          revert hp
          cases Enhanced.is_private_ip ip <;> simp
        have hfl : (ip :: rest).filter (fun x => !Enhanced.is_private_ip x) =
            ip :: rest.filter (fun x => !Enhanced.is_private_ip x) := by
          simp [List.filter_cons, hpf]
        rw [hpa, hfl]
        simp

theorem bulk_bare_spec (now : Nat) (ips : List String) :
    ∃ s', Enhanced.bulk_lookup bareState now ips =
        .ok (Enhanced.fillIn now ips (privAdd [] ips), s') ∧
      s'.cache = [] ∧ dbInv s'.db := by
  by_cases h0 : ips = []
  · subst h0
    refine ⟨bareState, rfl, rfl, ?_⟩
    constructor <;> intro p hp <;> simp [bareState] at hp
  · have hbare : bareLike bareState := by
      refine ⟨rfl, rfl, rfl, rfl, rfl, rfl, rfl, rfl, ?_⟩
      constructor <;> intro p hp <;> simp [bareState] at hp
    obtain ⟨s1, hA, hb1⟩ := phaseA_bare now ips [] [] bareState hbare
    obtain ⟨htok1, _, _, _, _, _, _, hcache1, hinv1⟩ := hb1
    refine ⟨save_cache s1, ?_, ?_, ?_⟩
    · unfold Enhanced.bulk_lookup
      rw [if_neg h0, hA]
      simp only [bind, Except.bind]
      rw [if_neg (by simp [htok1])]
      rfl
    · rw [save_cache_cache]
      exact hcache1
    · rw [save_cache_db]
      exact hinv1

theorem aget_privAdd (ips : List String) : ∀ (res : Results) (ip : String),
    aget (privAdd res ips) ip =
      if ip ∈ ips ∧ Enhanced.is_private_ip ip = true
      then some (LocalDB.privateDict ip) else aget res ip := by
  induction ips with
  | nil =>
      intro res ip
      simp [privAdd]
  | cons x rest ih =>
      intro res ip
      rw [show privAdd res (x :: rest) =
          privAdd (if Enhanced.is_private_ip x then aset res x (LocalDB.privateDict x)
                   else res) rest from by simp [privAdd], ih]
      by_cases hmem : ip ∈ rest ∧ Enhanced.is_private_ip ip = true
      · rw [if_pos hmem, if_pos ⟨List.mem_cons_of_mem _ hmem.1, hmem.2⟩]
      · rw [if_neg hmem]
        by_cases hx : ip = x
        · subst hx
          by_cases hp : Enhanced.is_private_ip ip = true
          · rw [if_pos hp, aget_aset_self, if_pos ⟨List.mem_cons_self .., hp⟩]
          · rw [if_neg hp, if_neg (fun h => hp h.2)]
        · by_cases hp2 : Enhanced.is_private_ip x = true
          · rw [if_pos hp2, aget_aset_ne _ _ _ _ hx, if_neg ?_]
            intro h
            rcases List.mem_cons.mp h.1 with h1 | h1
            · exact hx h1
            · exact hmem ⟨h1, h.2⟩
          · rw [if_neg hp2, if_neg ?_]
            intro h
            rcases List.mem_cons.mp h.1 with h1 | h1
            · exact hx h1
            · exact hmem ⟨h1, h.2⟩

theorem aget_fillIn (now : Nat) (ips : List String) : ∀ (res : Results) (ip : String),
    aget (Enhanced.fillIn now ips res) ip =
      match aget res ip with
      | some v => some v
      | none => if ip ∈ ips then some (Enhanced.bulkFallbackDict now ip) else none := by
  induction ips with
  | nil =>
      intro res ip
      cases h : aget res ip <;> simp [Enhanced.fillIn, h]
  | cons x rest ih =>
      intro res ip
      rw [show Enhanced.fillIn now (x :: rest) res =
          Enhanced.fillIn now rest
            (if (aget res x).isSome then res
             else aset res x (Enhanced.bulkFallbackDict now x)) from rfl, ih]
      by_cases hx : ip = x
      · subst hx
        cases hres : aget res ip with
        | some v => simp [hres]
        | none =>
            simp only [Option.isSome_none, Bool.false_eq_true, if_false,
              aget_aset_self]
            simp
      · have hres1 :
            aget (if (aget res x).isSome then res
                  else aset res x (Enhanced.bulkFallbackDict now x)) ip =
            aget res ip := by
          split
          · rfl
          · exact aget_aset_ne _ _ _ _ hx
        rw [hres1]
        cases aget res ip with
        | some v => rfl
        | none => simp [hx]

theorem privAdd_nodupKeys (ips : List String) : ∀ (res : Results),
    (res.map Prod.fst).Nodup → ((privAdd res ips).map Prod.fst).Nodup := by
  induction ips with
  | nil =>
      intro res h
      simpa [privAdd] using h
  | cons x rest ih =>
      intro res h
      rw [show privAdd res (x :: rest) =
          privAdd (if Enhanced.is_private_ip x then aset res x (LocalDB.privateDict x)
                   else res) rest from by simp [privAdd]]
      refine ih _ ?_
      split
      · exact keys_aset_nodup _ _ _ h
      · exact h

theorem fillIn_nodupKeys (now : Nat) (ips : List String) : ∀ (res : Results),
    (res.map Prod.fst).Nodup →
    ((Enhanced.fillIn now ips res).map Prod.fst).Nodup := by
  induction ips with
  | nil =>
      intro res h
      simpa [Enhanced.fillIn] using h
  | cons x rest ih =>
      intro res h
      rw [show Enhanced.fillIn now (x :: rest) res =
          Enhanced.fillIn now rest
            (if (aget res x).isSome then res
             else aset res x (Enhanced.bulkFallbackDict now x)) from rfl]
      refine ih _ ?_
      split
      · exact h
      · exact keys_aset_nodup _ _ _ h

/-- C6 (counterexample): with no tokens, no offline databases and an empty
store, bulk-resolving the private address 10.0.0.1 does *not* produce an
all-"Unknown" record: the local-database tier synthesizes the private record,
whose country field is "Private". -/
theorem c6_counterexample :
    aget (okRes (Enhanced.bulk_lookup bareState 0 ["10.0.0.1"])) "10.0.0.1" =
      some (LocalDB.privateDict "10.0.0.1") ∧
    aget (LocalDB.privateDict "10.0.0.1") "country" = some (.s "Private") := by
  decide

/-- C6 (amended): in the bare configuration (no tokens, no offline database
files, empty durable store and cache), bulk resolution of any list of IP
strings succeeds and returns a map with exactly one record per unique input
IP — no duplicate keys, no omissions; every *non-private* input gets the
canonical fallback record, whose string fields are all "Unknown" (codes "XX",
`source='fallback'`), while every private-range input instead gets the
synthesized private record (country "Private", source "private"). -/
theorem c6_total_fallback (now : Nat) (ips : List String) :
    raised (Enhanced.bulk_lookup bareState now ips) = false ∧
    ((okRes (Enhanced.bulk_lookup bareState now ips)).map Prod.fst).Nodup ∧
    (∀ ip, aget (okRes (Enhanced.bulk_lookup bareState now ips)) ip ≠ none ↔
       ip ∈ ips) ∧
    (∀ ip ∈ ips, Enhanced.is_private_ip ip = false →
       aget (okRes (Enhanced.bulk_lookup bareState now ips)) ip =
         some (Enhanced.bulkFallbackDict now ip)) ∧
    (∀ ip ∈ ips, Enhanced.is_private_ip ip = true →
       aget (okRes (Enhanced.bulk_lookup bareState now ips)) ip =
         some (LocalDB.privateDict ip)) ∧
    (∀ ip : String, ∀ k ∈ (["country", "country_name", "region", "city", "org",
        "asn", "as_name", "as_domain", "continent", "timezone"] : List String),
       aget (Enhanced.bulkFallbackDict now ip) k = some (.s "Unknown")) ∧
    (∀ ip : String, ∀ k ∈ (["country_code", "continent_code"] : List String),
       aget (Enhanced.bulkFallbackDict now ip) k = some (.s "XX")) := by
  obtain ⟨s', heq, hcache, hinv⟩ := bulk_bare_spec now ips
  have hres : okRes (Enhanced.bulk_lookup bareState now ips) =
      Enhanced.fillIn now ips (privAdd [] ips) := by
    rw [heq]
    rfl
  refine ⟨by rw [heq]; rfl, ?_, ?_, ?_, ?_, ?_, ?_⟩
  · rw [hres]
    exact fillIn_nodupKeys now ips _ (privAdd_nodupKeys ips [] (by simp))
  · intro ip
    rw [hres, aget_fillIn, aget_privAdd]
    by_cases h1 : ip ∈ ips ∧ Enhanced.is_private_ip ip = true
    · rw [if_pos h1]
      simp [h1.1]
    · rw [if_neg h1]
      by_cases hm : ip ∈ ips <;> simp [aget, hm]
  · intro ip hm hpf
    rw [hres, aget_fillIn, aget_privAdd,
      if_neg (fun h => by rw [hpf] at h; exact absurd h.2 (by decide))]
    simp [aget, hm]
  · intro ip hm hp
    rw [hres, aget_fillIn, aget_privAdd, if_pos ⟨hm, hp⟩]
  · intro ip k hk
    simp only [List.mem_cons, List.not_mem_nil, or_false] at hk
    rcases hk with rfl | rfl | rfl | rfl | rfl | rfl | rfl | rfl | rfl | rfl <;> rfl
  · intro ip k hk
    simp only [List.mem_cons, List.not_mem_nil, or_false] at hk
    rcases hk with rfl | rfl <;> rfl

/-- C6 (witness): a concrete mixed list — the duplicate public address gets
exactly one all-"Unknown" fallback record and the keys are duplicate-free. -/
theorem c6_witness :
    aget (okRes (Enhanced.bulk_lookup bareState 0 ["10.0.0.1", "8.8.8.8", "8.8.8.8"]))
        "8.8.8.8" = some (Enhanced.bulkFallbackDict 0 "8.8.8.8") ∧
    ((okRes (Enhanced.bulk_lookup bareState 0 ["10.0.0.1", "8.8.8.8", "8.8.8.8"])).map
        Prod.fst).Nodup :=
  ⟨(c6_total_fallback 0 ["10.0.0.1", "8.8.8.8", "8.8.8.8"]).2.2.2.1 "8.8.8.8"
      (by decide) (by decide),
   (c6_total_fallback 0 ["10.0.0.1", "8.8.8.8", "8.8.8.8"]).2.1⟩

theorem aget_fixDefault_ne (d : Dict) (p : String × String) (k : String)
    (h : p.1 ≠ k) : aget (LocalDB.fixDefault d p) k = aget d k := by
  unfold LocalDB.fixDefault
  split
  · exact aget_aset_ne _ _ _ _ (fun hc => h hc.symm)
  · split
    · exact aget_aset_ne _ _ _ _ (fun hc => h hc.symm)
    · rfl

theorem aget_foldl_fix_ne (L : List (String × String)) (d : Dict) (k : String)
    (hL : ∀ p ∈ L, p.1 ≠ k) :
    aget (L.foldl LocalDB.fixDefault d) k = aget d k := by
  induction L generalizing d with
  | nil => rfl
  | cons q rest ih =>
      rw [List.foldl_cons, ih _ (fun p hp => hL p (List.mem_cons_of_mem _ hp)),
        aget_fixDefault_ne d q k (hL q (List.mem_cons_self ..))]

theorem fillDefaults_source_spec (d : Dict) :
    ∃ v, aget (LocalDB.fillDefaults d) "source" = some v ∧
      (v = .s "unknown" ∨ aget d "source" = some v) := by
  have hsplit : LocalDB.fillDefaults d =
      LocalDB.fixDefault
        (List.foldl LocalDB.fixDefault d
          [("country", "Unknown"), ("country_code", "XX"),
           ("country_name", "Unknown"), ("continent", "Unknown"),
           ("continent_code", "XX"), ("region", "Unknown"), ("city", "Unknown"),
           ("asn", "Unknown"), ("as_name", "Unknown"), ("as_domain", "unknown"),
           ("org", "Unknown"), ("isp", "Unknown"), ("timezone", "Unknown")])
        ("source", "unknown") := by
    rw [LocalDB.fillDefaults,
      show LocalDB.defaultFields =
        [("country", "Unknown"), ("country_code", "XX"),
         ("country_name", "Unknown"), ("continent", "Unknown"),
         ("continent_code", "XX"), ("region", "Unknown"), ("city", "Unknown"),
         ("asn", "Unknown"), ("as_name", "Unknown"), ("as_domain", "unknown"),
         ("org", "Unknown"), ("isp", "Unknown"), ("timezone", "Unknown")] ++
        [("source", "unknown")] from rfl,
      List.foldl_append]
    rfl
  rw [hsplit]
  have hD : aget (List.foldl LocalDB.fixDefault d
      [("country", "Unknown"), ("country_code", "XX"),
       ("country_name", "Unknown"), ("continent", "Unknown"),
       ("continent_code", "XX"), ("region", "Unknown"), ("city", "Unknown"),
       ("asn", "Unknown"), ("as_name", "Unknown"), ("as_domain", "unknown"),
       ("org", "Unknown"), ("isp", "Unknown"), ("timezone", "Unknown")])
      "source" = aget d "source" := aget_foldl_fix_ne _ _ _ (by decide)
  generalize hgen : List.foldl LocalDB.fixDefault d
      [("country", "Unknown"), ("country_code", "XX"),
       ("country_name", "Unknown"), ("continent", "Unknown"),
       ("continent_code", "XX"), ("region", "Unknown"), ("city", "Unknown"),
       ("asn", "Unknown"), ("as_name", "Unknown"), ("as_domain", "unknown"),
       ("org", "Unknown"), ("isp", "Unknown"), ("timezone", "Unknown")] = D
    at hD ⊢
  unfold LocalDB.fixDefault
  rw [hD]
  cases hv : aget d "source" with
  | none => exact ⟨.s "unknown", aget_aset_self .., Or.inl rfl⟩
  | some v =>
      show ∃ v', aget (if v = Val.s "" ∨ v = Val.null
          then aset D "source" (Val.s "unknown") else D) "source" = some v' ∧
        (v' = Val.s "unknown" ∨ some v = some v')
      by_cases hbad : v = .s "" ∨ v = .null
      · exact ⟨.s "unknown", by rw [if_pos hbad]; exact aget_aset_self .., Or.inl rfl⟩
      · refine ⟨v, ?_, Or.inr rfl⟩
        rw [if_neg hbad, hD, hv]

theorem aget_fillIfMissing_ne (d : Dict) (k k' : String) (v : Val)
    (h : k' ≠ k) :
    aget (if (aget d k).isSome then d else aset d k v) k' = aget d k' := by
  split
  · rfl
  · exact aget_aset_ne _ _ _ _ h

theorem aget_foldl_fillIfMissing (L : List String) (d : Dict) (k' : String)
    (hL : ∀ k ∈ L, k' ≠ k) :
    aget (L.foldl
      (fun d k => if (aget d k).isSome then d else aset d k (.s "Unknown")) d) k' =
    aget d k' := by
  induction L generalizing d with
  | nil => rfl
  | cons q rest ih =>
      rw [List.foldl_cons, ih _ (fun p hp => hL p (List.mem_cons_of_mem _ hp)),
        aget_fillIfMissing_ne d q k' _ (hL q (List.mem_cons_self ..))]

theorem offlineFallbackSection_eq (s : SvcState) (ip : String) (info : Dict) :
    Enhanced.offlineFallbackSection s ip info =
      (if Enhanced.meaningful
            (Enhanced.fbRco (Enhanced.fbPad (Enhanced.fbCity s ip (Enhanced.fbCountry s ip info))))
            ["country", "city", "asn"]
       then some (Enhanced.fbRco (Enhanced.fbPad (Enhanced.fbCity s ip (Enhanced.fbCountry s ip info))))
       else none) := rfl

theorem offlineCore_eq (s : SvcState) (ip : String) :
    Enhanced.offlineCore s ip =
      match (match s.liteDb with
             | none => none
             | some rd =>
                 match rd ip with
                 | none => none
                 | some d => if d = [] then none else some d) with
      | some ld =>
          if Enhanced.meaningful (Enhanced.liteInfo ip ld) ["country", "asn", "as_name"]
          then some (Enhanced.liteInfo ip ld)
          else Enhanced.offlineFallbackSection s ip (Enhanced.liteInfo ip ld)
      | none =>
          Enhanced.offlineFallbackSection s ip
            [("ip", .s ip), ("source", .s "offline")] := rfl

theorem aget_fbCountry_source (s : SvcState) (ip : String) (info : Dict) :
    aget (Enhanced.fbCountry s ip info) "source" = aget info "source" := by
  unfold Enhanced.fbCountry
  repeat' split
  all_goals first
    | rfl
    | rw [aget_aset_ne _ _ _ _ (by decide), aget_aset_ne _ _ _ _ (by decide),
        aget_aset_ne _ _ _ _ (by decide)]

theorem aget_fbCity_source (s : SvcState) (ip : String) (info : Dict) :
    aget (Enhanced.fbCity s ip info) "source" = aget info "source" := by
  unfold Enhanced.fbCity
  repeat' split
  all_goals first
    | rfl
    | rw [aget_aset_ne _ _ _ _ (by decide), aget_aset_ne _ _ _ _ (by decide),
        aget_aset_ne _ _ _ _ (by decide)]

theorem aget_fbPad_source (info : Dict) :
    aget (Enhanced.fbPad info) "source" = aget info "source" := by
  unfold Enhanced.fbPad
  exact aget_foldl_fillIfMissing _ _ _ (by decide)

theorem aget_fbRco_source (info : Dict) :
    aget (Enhanced.fbRco info) "source" = aget info "source" := by
  unfold Enhanced.fbRco
  rw [aget_fillIfMissing_ne _ _ _ _ (by decide),
    aget_fillIfMissing_ne _ _ _ _ (by decide),
    aget_fillIfMissing_ne _ _ _ _ (by decide)]

theorem offlineFallbackSection_source (s : SvcState) (ip : String)
    (info d : Dict) (h : Enhanced.offlineFallbackSection s ip info = some d) :
    aget d "source" = aget info "source" := by
  rw [offlineFallbackSection_eq] at h
  split at h
  · injection h with h
    subst h
    rw [aget_fbRco_source, aget_fbPad_source, aget_fbCity_source,
      aget_fbCountry_source]
  · simp at h

theorem liteInfo_source (ip : String) (ld : Dict) :
    aget (Enhanced.liteInfo ip ld) "source" = some (.s "offline") := by
  unfold Enhanced.liteInfo
  rw [aget_aset_ne _ _ _ _ (by decide), aget_aset_ne _ _ _ _ (by decide),
    aget_aset_ne _ _ _ _ (by decide)]
  split <;>
    rw [aget_aset_ne _ _ _ _ (by decide), aget_aset_ne _ _ _ _ (by decide),
      aget_aset_ne _ _ _ _ (by decide), aget_aset_ne _ _ _ _ (by decide),
      aget_aset_ne _ _ _ _ (by decide), aget_aset_ne _ _ _ _ (by decide),
      aget_aset_ne _ _ _ _ (by decide), aget_aset_ne _ _ _ _ (by decide),
      aget_aset_ne _ _ _ _ (by decide)] <;>
    rfl

theorem offlineCore_source (s : SvcState) (ip : String) (d : Dict)
    (h : Enhanced.offlineCore s ip = some d) :
    aget d "source" = some (.s "offline") := by
  rw [offlineCore_eq] at h
  split at h
  · rename_i ld hld
    split at h
    · injection h with h
      subst h
      exact liteInfo_source ip ld
    · rw [offlineFallbackSection_source s ip _ d h]
      exact liteInfo_source ip ld
  · rw [offlineFallbackSection_source s ip _ d h]
    rfl

theorem get_offline_info_source (s : SvcState) (ip : String) (o : Dict)
    (h : (Enhanced.get_offline_info s ip).1 = some o) :
    aget o "source" = some (.s "offline_private") ∨
    aget o "source" = some (.s "offline") := by
  unfold Enhanced.get_offline_info at h
  split at h
  · injection h with h
    subst h
    exact Or.inl rfl
  · split at h
    · exact absurd h (by simp)
    · exact Or.inr (offlineCore_source s ip o h)

theorem get_online_info_source (s : SvcState) (ip : String) (o : Dict)
    (h : Enhanced.get_online_info s ip = some o) :
    aget o "source" = some (.s "online") := by
  unfold Enhanced.get_online_info at h
  split at h
  · exact absurd h (by simp)
  · split at h
    · exact absurd h (by simp)
    · injection h with h
      subst h
      exact aget_aset_self _ _ _

theorem aget_deriveIsp_ne (d : Dict) (k : String) (h : k ≠ "isp") :
    aget (LocalDB.deriveIsp d) k = aget d k := by
  unfold LocalDB.deriveIsp
  split
  · exact aget_aset_ne _ _ _ _ h
  · split
    · exact aget_aset_ne _ _ _ _ h
    · rfl

theorem mmdb_dupdate_source (s : SvcState) (ip : String) (m : Dict)
    (h : LocalDB.get_mmdb_data s ip = some m) (b : Dict) :
    aget (dupdate b m) "source" = some (.s "mmdb") := by
  unfold LocalDB.get_mmdb_data at h
  split at h
  · exact absurd h (by simp)
  · split at h
    · exact absurd h (by simp)
    · split at h
      · exact absurd h (by simp)
      · injection h with h
        subst h
        simp only [dupdate, List.foldl]
        exact aget_aset_self _ _ _

theorem ipinfo_dupdate_source (s : SvcState) (ip : String) (a : Dict)
    (h : LocalDB.get_ipinfo_data s ip = some a) (b : Dict) :
    aget (dupdate b a) "source" = some (.s "ipinfo_api") := by
  simp only [LocalDB.get_ipinfo_data] at h
  split at h
  · exact absurd h (by simp)
  · split at h
    · exact absurd h (by simp)
    · injection h with h
      subst h
      simp only [dupdate, List.foldl]
      exact aget_aset_self _ _ _

theorem fillDefaults_source_ne (d : Dict)
    (h : ∀ v, aget d "source" = some v → v ≠ .s "fallback") :
    aget (LocalDB.deriveIsp (LocalDB.fillDefaults d)) "source" ≠
      some (.s "fallback") := by
  rw [aget_deriveIsp_ne _ _ (by decide)]
  obtain ⟨v, hv, hor⟩ := fillDefaults_source_spec d
  rw [hv]
  intro hc
  injection hc with hc
  rcases hor with h1 | h1
  · rw [h1] at hc
    exact absurd hc (by decide)
  · exact h v h1 hc

theorem externalDict_source (s : SvcState) (ip : String) :
    aget (LocalDB.externalDict s ip) "source" ≠ some (.s "fallback") := by
  simp only [LocalDB.externalDict]
  apply fillDefaults_source_ne
  intro v hv
  split at hv
  · rename_i a ha
    split at hv
    · rw [aget_aset_self] at hv
      injection hv with hv
      subst hv
      decide
    · rw [ipinfo_dupdate_source s ip a ha _] at hv
      injection hv with hv
      subst hv
      decide
  · split at hv
    · rename_i m hm
      rw [mmdb_dupdate_source s ip m hm _] at hv
      injection hv with hv
      subst hv
      decide
    · simp [aget] at hv

theorem mem_adel {α : Type} (l : List (String × α)) (k : String)
    (p : String × α) (h : p ∈ adel l k) : p ∈ l := by
  induction l with
  | nil => simp [adel] at h
  | cons q rest ih =>
      obtain ⟨k0, v0⟩ := q
      simp only [adel] at h
      split at h
      · exact List.mem_cons_of_mem _ h
      · rcases List.mem_cons.mp h with h1 | h1
        · subst h1
          exact List.mem_cons_self ..
        · exact List.mem_cons_of_mem _ (ih h1)

theorem noFallbackCache_aset (c : Cache) (ip : String) (d : Dict)
    (hc : noFallbackCache c) (hd : aget d "source" ≠ some (.s "fallback")) :
    noFallbackCache (aset c ip d) := by
  intro p hp
  rcases mem_aset _ _ _ _ hp with h | h
  · rw [h]
    exact hd
  · exact hc p h

theorem noFallbackCache_adel (c : Cache) (ip : String)
    (hc : noFallbackCache c) : noFallbackCache (adel c ip) :=
  fun p hp => hc p (mem_adel _ _ _ hp)

theorem localdb_noFallback (s : SvcState) (now : Nat) (ip : String)
    (lr : Dict) (s1 : SvcState)
    (h : LocalDB.get_ip_info s now ip = .ok (lr, s1))
    (hnf : noFallbackRows s.db) :
    noFallbackRows s1.db ∧ s1.cache = s.cache ∧
    aget lr "source" ≠ some (.s "fallback") := by
  simp only [LocalDB.get_ip_info, LocalDB.storeE, bind, Except.bind] at h
  split at h
  · simp only [Except.ok.injEq, Prod.mk.injEq] at h
    obtain ⟨h1, h2⟩ := h
    subst h1
    subst h2
    exact ⟨hnf, rfl, by simp [aget]⟩
  · split at h
    · split at h
      · exact Except.noConfusion h
      · rename_i v heq
        simp only [Except.bind, Except.ok.injEq, Prod.mk.injEq] at h
        obtain ⟨h1, h2⟩ := h
        subst h1
        subst h2
        split at heq
        · exact Except.noConfusion heq
        · injection heq with heq
          subst heq
          refine ⟨store_noFallback _ _ _ _ hnf ?_, rfl, ?_⟩ <;>
            · rw [show aget (LocalDB.privateDict ip) "source" =
                  some (.s "private") from rfl]
              decide
    · split at h
      · exact Except.noConfusion h
      · split at h
        · rename_i row hrow
          simp only [Except.ok.injEq, Prod.mk.injEq] at h
          obtain ⟨h1, h2⟩ := h
          subst h1
          subst h2
          have hrs : row.source ≠ .s "fallback" :=
            hnf (ip, row) (aget_mem _ _ _ hrow)
          refine ⟨?_, rfl, ?_⟩
          · intro p hp
            rcases mem_aset _ _ _ _ hp with h3 | h3
            · rw [h3]
              exact hrs
            · exact hnf p h3
          · rw [aget_aset_ne _ _ _ _ (by decide),
              show aget (LocalDB.rowToDict row) "source" = some row.source from rfl]
            intro hc
            injection hc with hc
            exact hrs hc
        · simp only [Except.ok.injEq, Prod.mk.injEq] at h
          obtain ⟨h1, h2⟩ := h
          subst h1
          subst h2
          exact ⟨store_noFallback _ _ _ _ hnf (externalDict_source s ip), rfl,
            externalDict_source s ip⟩

theorem resolveTail_shape (s3 : SvcState) (now : Nat) (ip : String) (rec0 : Dict) :
    ((do
       let s4 ← if rec0 ≠ [] ∧ aget rec0 "source" ≠ some (.s "fallback") then
                  LocalDB.storeE s3 now ip rec0
                else pure s3
       let rec1 := aset rec0 "timestamp" (.s (isoStr now))
       let s5 := { s4 with cache := aset s4.cache ip rec1 }
       .ok (rec1, save_cache s5)) : Except Unit (Dict × SvcState)) = .error () ∨
    ∃ s4,
      (s4 = s3 ∨
       (aget rec0 "source" ≠ some (.s "fallback") ∧
        s4 = { s3 with db := LocalDB.store_ip_data s3.db now ip rec0 })) ∧
      ((do
         let s4 ← if rec0 ≠ [] ∧ aget rec0 "source" ≠ some (.s "fallback") then
                    LocalDB.storeE s3 now ip rec0
                  else pure s3
         let rec1 := aset rec0 "timestamp" (.s (isoStr now))
         let s5 := { s4 with cache := aset s4.cache ip rec1 }
         .ok (rec1, save_cache s5)) : Except Unit (Dict × SvcState)) =
        .ok (aset rec0 "timestamp" (.s (isoStr now)),
             save_cache { s4 with
               cache := aset s4.cache ip
                 (aset rec0 "timestamp" (.s (isoStr now))) }) := by
  by_cases hg : rec0 ≠ [] ∧ aget rec0 "source" ≠ some (.s "fallback")
  · rw [if_pos hg]
    unfold LocalDB.storeE
    by_cases hdb : s3.dbFail = true
    · rw [if_pos hdb]
      simp only [bind, Except.bind]
      exact Or.inl trivial
    · rw [if_neg hdb]
      simp only [bind, Except.bind]
      exact Or.inr ⟨_, Or.inr ⟨hg.2, rfl⟩, rfl⟩
  · rw [if_neg hg]
    simp only [bind, Except.bind, pure, Except.pure]
    exact Or.inr ⟨_, Or.inl rfl, rfl⟩

theorem resolveLower_shape (s : SvcState) (now : Nat) (ip : String) :
    Enhanced.resolveLower s now ip = .error () ∨
    ∃ rec0 s4,
      (s4 = (Enhanced.get_offline_info s ip).2 ∨
       (aget rec0 "source" ≠ some (.s "fallback") ∧
        s4 = { (Enhanced.get_offline_info s ip).2 with
               db := LocalDB.store_ip_data
                 (Enhanced.get_offline_info s ip).2.db now ip rec0 })) ∧
      Enhanced.resolveLower s now ip =
        .ok (aset rec0 "timestamp" (.s (isoStr now)),
             save_cache { s4 with
               cache := aset s4.cache ip
                 (aset rec0 "timestamp" (.s (isoStr now))) }) := by
  unfold Enhanced.resolveLower
  generalize (Enhanced.get_offline_info s ip).1 = off
  generalize (Enhanced.get_offline_info s ip).2 = s3
  dsimp only
  cases off with
  | none =>
      dsimp only
      rw [if_pos rfl]
      cases honl : Enhanced.get_online_info s3 ip with
      | some onl =>
          dsimp only
          rcases resolveTail_shape s3 now ip onl with h | ⟨s4, h1, h2⟩
          · exact Or.inl h
          · exact Or.inr ⟨onl, s4, h1, h2⟩
      | none =>
          dsimp only
          rcases resolveTail_shape s3 now ip (Enhanced.fallbackDict ip) with
            h | ⟨s4, h1, h2⟩
          · exact Or.inl h
          · exact Or.inr ⟨Enhanced.fallbackDict ip, s4, h1, h2⟩
  | some o =>
      dsimp only
      split
      · cases honl : Enhanced.get_online_info s3 ip with
        | some onl =>
            dsimp only
            rcases resolveTail_shape s3 now ip (dupdate o onl) with
              h | ⟨s4, h1, h2⟩
            · exact Or.inl h
            · exact Or.inr ⟨dupdate o onl, s4, h1, h2⟩
        | none =>
            dsimp only
            rcases resolveTail_shape s3 now ip o with h | ⟨s4, h1, h2⟩
            · exact Or.inl h
            · exact Or.inr ⟨o, s4, h1, h2⟩
      · dsimp only
        rcases resolveTail_shape s3 now ip o with h | ⟨s4, h1, h2⟩
        · exact Or.inl h
        · exact Or.inr ⟨o, s4, h1, h2⟩

theorem resolveLower_c8 (s : SvcState) (now : Nat) (ip : String)
    (d : Dict) (s' : SvcState)
    (h : Enhanced.resolveLower s now ip = .ok (d, s'))
    (hnf : noFallbackRows s.db) :
    noFallbackRows s'.db ∧ aget s'.cache ip = some d := by
  rcases resolveLower_shape s now ip with herr | ⟨rec0, s4, hs4, heq⟩
  · rw [herr] at h
    exact Except.noConfusion h
  · rw [heq] at h
    simp only [Except.ok.injEq, Prod.mk.injEq] at h
    obtain ⟨h1, h2⟩ := h
    subst h1
    subst h2
    constructor
    · rw [save_cache_db]
      show noFallbackRows s4.db
      rcases hs4 with h4 | ⟨hsrc, h4⟩
      · rw [h4, get_offline_info_db]
        exact hnf
      · rw [h4]
        show noFallbackRows
          (LocalDB.store_ip_data (Enhanced.get_offline_info s ip).2.db now ip rec0)
        rw [get_offline_info_db]
        exact store_noFallback _ _ _ _ hnf hsrc
    · rw [save_cache_cache]
      exact aget_aset_self _ _ _

theorem enhanced_get_ip_info_c8 (s : SvcState) (now : Nat) (ip : String)
    (d : Dict) (s' : SvcState)
    (h : Enhanced.get_ip_info s now ip = .ok (d, s'))
    (hnf : noFallbackRows s.db) :
    noFallbackRows s'.db ∧
    (aget d "source" = some (.s "fallback") → aget s'.cache ip = some d) := by
  unfold Enhanced.get_ip_info at h
  split at h
  · simp only [Except.ok.injEq, Prod.mk.injEq] at h
    obtain ⟨h1, h2⟩ := h
    subst h1
    subst h2
    exact ⟨hnf, fun hc => by simp [aget] at hc⟩
  · cases hloc : LocalDB.get_ip_info s now ip with
    | error e =>
        rw [hloc] at h
        simp only [bind, Except.bind] at h
        exact Except.noConfusion h
    | ok p =>
        obtain ⟨lr, s1⟩ := p
        rw [hloc] at h
        simp only [bind, Except.bind] at h
        obtain ⟨hnf1, hcacheEq, hsrc1⟩ := localdb_noFallback s now ip lr s1 hloc hnf
        split at h
        · simp only [Except.ok.injEq, Prod.mk.injEq] at h
          obtain ⟨h1, h2⟩ := h
          subst h1
          subst h2
          exact ⟨hnf1, fun hc => absurd hc hsrc1⟩
        · split at h
          · rename_i c hcEq
            cases hcf : Enhanced.cacheFresh now c with
            | error e =>
                rw [hcf] at h
                simp only [bind, Except.bind] at h
                exact Except.noConfusion h
            | ok fresh =>
                rw [hcf] at h
                simp only [bind, Except.bind] at h
                split at h
                · simp only [Except.ok.injEq, Prod.mk.injEq] at h
                  obtain ⟨h1, h2⟩ := h
                  subst h1
                  subst h2
                  exact ⟨hnf1, fun _ => hcEq⟩
                · have hr := resolveLower_c8 { s1 with cache := adel s1.cache ip }
                    now ip d s' h hnf1
                  exact ⟨hr.1, fun _ => hr.2⟩
          · have hr := resolveLower_c8 s1 now ip d s' h hnf1
            exact ⟨hr.1, fun _ => hr.2⟩

theorem offlinePart_c8 (now : Nat) (ip : String) (res : Results)
    (onl : List String) (s2 : SvcState) (res' : Results) (onl' : List String)
    (s' : SvcState)
    (h : (match (Enhanced.get_offline_info s2 ip).1 with
          | some o =>
              if aget o "source" = some (.s "offline_private") ∨
                 pyGetS o "country" "Unknown" ≠ .s "Unknown" then do
                let o' := aset o "timestamp" (.t now)
                let s4 ← LocalDB.storeE
                  (bumpOfflineHits (Enhanced.get_offline_info s2 ip).2) now ip o'
                .ok (aset res ip o', onl, { s4 with cache := aset s4.cache ip o' })
              else .ok (res, onl ++ [ip], (Enhanced.get_offline_info s2 ip).2)
          | none =>
              .ok (res, onl ++ [ip], (Enhanced.get_offline_info s2 ip).2) :
            Except Unit (Results × List String × SvcState)) =
         .ok (res', onl', s'))
    (hdb2 : noFallbackRows s2.db) (hc2 : noFallbackCache s2.cache) :
    noFallbackRows s'.db ∧ noFallbackCache s'.cache := by
  split at h
  · rename_i o hoff
    split at h
    · simp only [LocalDB.storeE, bind, Except.bind] at h
      split at h
      · exact Except.noConfusion h
      · rename_i v heq
        simp only [Except.ok.injEq, Prod.mk.injEq] at h
        obtain ⟨-, -, h3⟩ := h
        subst h3
        split at heq
        · exact Except.noConfusion heq
        · injection heq with heq
          subst heq
          have hosrc := get_offline_info_source s2 ip o hoff
          have ho2 : aget (aset o "timestamp" (.t now)) "source" ≠
              some (.s "fallback") := by
            rw [aget_aset_ne _ _ _ _ (by decide)]
            rcases hosrc with h4 | h4 <;> rw [h4] <;> decide
          constructor
          · show noFallbackRows (LocalDB.store_ip_data
              (Enhanced.get_offline_info s2 ip).2.db now ip
              (aset o "timestamp" (.t now)))
            rw [get_offline_info_db]
            exact store_noFallback _ _ _ _ hdb2 ho2
          · show noFallbackCache (aset
              (Enhanced.get_offline_info s2 ip).2.cache ip
              (aset o "timestamp" (.t now)))
            rw [get_offline_info_cache]
            exact noFallbackCache_aset _ _ _ hc2 ho2
    · simp only [Except.ok.injEq, Prod.mk.injEq] at h
      obtain ⟨-, -, h3⟩ := h
      subst h3
      constructor
      · rw [get_offline_info_db]
        exact hdb2
      · rw [get_offline_info_cache]
        exact hc2
  · simp only [Except.ok.injEq, Prod.mk.injEq] at h
    obtain ⟨-, -, h3⟩ := h
    subst h3
    constructor
    · rw [get_offline_info_db]
      exact hdb2
    · rw [get_offline_info_cache]
      exact hc2

theorem phaseAStep_c8 (now : Nat) (ip : String) (res : Results)
    (onl : List String) (s : SvcState) (res' : Results) (onl' : List String)
    (s' : SvcState)
    (h : Enhanced.phaseAStep now ip res onl s = .ok (res', onl', s'))
    (hdb : noFallbackRows s.db) (hc : noFallbackCache s.cache) :
    noFallbackRows s'.db ∧ noFallbackCache s'.cache := by
  unfold Enhanced.phaseAStep at h
  cases hloc : LocalDB.get_ip_info s now ip with
  | error e =>
      rw [hloc] at h
      simp only [bind, Except.bind] at h
      exact Except.noConfusion h
  | ok p =>
      obtain ⟨lr, s1⟩ := p
      rw [hloc] at h
      simp only [bind, Except.bind] at h
      obtain ⟨hnf1, hcacheEq, -⟩ := localdb_noFallback s now ip lr s1 hloc hdb
      have hc1 : noFallbackCache s1.cache := by
        rw [hcacheEq]
        exact hc
      split at h
      · simp only [Except.ok.injEq, Prod.mk.injEq] at h
        obtain ⟨-, -, h3⟩ := h
        subst h3
        exact ⟨hnf1, hc1⟩
      · split at h
        · rename_i c hcEq
          cases hcf : Enhanced.cacheFresh now c with
          | error e =>
              rw [hcf] at h
              simp only [bind, Except.bind] at h
              exact Except.noConfusion h
          | ok fresh =>
              rw [hcf] at h
              simp only [bind, Except.bind] at h
              split at h
              · simp only [Except.ok.injEq, Prod.mk.injEq] at h
                obtain ⟨-, -, h3⟩ := h
                subst h3
                exact ⟨hnf1, hc1⟩
              · exact offlinePart_c8 now ip res onl
                  { s1 with cache := adel s1.cache ip } res' onl' s' h hnf1
                  (noFallbackCache_adel s1.cache ip hc1)
        · exact offlinePart_c8 now ip res onl s1 res' onl' s' h hnf1 hc1

theorem phaseA_c8 (now : Nat) (ips : List String) : ∀ (res : Results)
    (onl : List String) (s : SvcState) (res' : Results) (onl' : List String)
    (s' : SvcState),
    Enhanced.phaseA now ips res onl s = .ok (res', onl', s') →
    noFallbackRows s.db → noFallbackCache s.cache →
    noFallbackRows s'.db ∧ noFallbackCache s'.cache := by
  induction ips with
  | nil =>
      intro res onl s res' onl' s' h hdb hc
      unfold Enhanced.phaseA at h
      simp only [Except.ok.injEq, Prod.mk.injEq] at h
      obtain ⟨-, -, h3⟩ := h
      subst h3
      exact ⟨hdb, hc⟩
  | cons ip rest ih =>
      intro res onl s res' onl' s' h hdb hc
      unfold Enhanced.phaseA at h
      cases hstep : Enhanced.phaseAStep now ip res onl s with
      | error e =>
          rw [hstep] at h
          simp only [bind, Except.bind] at h
          exact Except.noConfusion h
      | ok t =>
          obtain ⟨res1, onl1, s1⟩ := t
          rw [hstep] at h
          simp only [bind, Except.bind] at h
          obtain ⟨hdb1, hc1⟩ := phaseAStep_c8 now ip res onl s res1 onl1 s1 hstep hdb hc
          exact ih res1 onl1 s1 res' onl' s' h hdb1 hc1

theorem phaseBStep_c8 (now : Nat) (ip : String) (res : Results) (s : SvcState)
    (res' : Results) (s' : SvcState)
    (h : Enhanced.phaseBStep now ip res s = .ok (res', s'))
    (hdb : noFallbackRows s.db) (hc : noFallbackCache s.cache) :
    noFallbackRows s'.db ∧ noFallbackCache s'.cache := by
  unfold Enhanced.phaseBStep at h
  split at h
  · rename_i info hinfo
    simp only [LocalDB.storeE, bind, Except.bind] at h
    split at h
    · exact Except.noConfusion h
    · rename_i v heq
      simp only [Except.ok.injEq, Prod.mk.injEq] at h
      obtain ⟨-, h2⟩ := h
      subst h2
      split at heq
      · exact Except.noConfusion heq
      · injection heq with heq
        subst heq
        have hsrc := get_online_info_source s ip info hinfo
        have h2src : aget (aset info "timestamp" (.t now)) "source" ≠
            some (.s "fallback") := by
          rw [aget_aset_ne _ _ _ _ (by decide), hsrc]
          decide
        constructor
        · show noFallbackRows (LocalDB.store_ip_data s.db now ip
            (aset info "timestamp" (.t now)))
          exact store_noFallback _ _ _ _ hdb h2src
        · show noFallbackCache (aset s.cache ip (aset info "timestamp" (.t now)))
          exact noFallbackCache_aset _ _ _ hc h2src
  · simp only [Except.ok.injEq, Prod.mk.injEq] at h
    obtain ⟨-, h2⟩ := h
    subst h2
    exact ⟨hdb, hc⟩

theorem phaseB_c8 (now : Nat) (ips : List String) : ∀ (res : Results)
    (s : SvcState) (res' : Results) (s' : SvcState),
    Enhanced.phaseB now ips res s = .ok (res', s') →
    noFallbackRows s.db → noFallbackCache s.cache →
    noFallbackRows s'.db ∧ noFallbackCache s'.cache := by
  induction ips with
  | nil =>
      intro res s res' s' h hdb hc
      unfold Enhanced.phaseB at h
      simp only [Except.ok.injEq, Prod.mk.injEq] at h
      obtain ⟨-, h2⟩ := h
      subst h2
      exact ⟨hdb, hc⟩
  | cons ip rest ih =>
      intro res s res' s' h hdb hc
      unfold Enhanced.phaseB at h
      cases hstep : Enhanced.phaseBStep now ip res s with
      | error e =>
          rw [hstep] at h
          simp only [bind, Except.bind] at h
          exact Except.noConfusion h
      | ok u =>
          obtain ⟨res1, s1⟩ := u
          rw [hstep] at h
          simp only [bind, Except.bind] at h
          obtain ⟨hdb1, hc1⟩ := phaseBStep_c8 now ip res s res1 s1 hstep hdb hc
          exact ih res1 s1 res' s' h hdb1 hc1

theorem bulk_c8 (s : SvcState) (now : Nat) (ips : List String)
    (res : Results) (sB : SvcState)
    (h : Enhanced.bulk_lookup s now ips = .ok (res, sB))
    (hdb : noFallbackRows s.db) (hc : noFallbackCache s.cache) :
    noFallbackRows sB.db ∧ noFallbackCache sB.cache := by
  unfold Enhanced.bulk_lookup at h
  split at h
  · simp only [Except.ok.injEq, Prod.mk.injEq] at h
    obtain ⟨-, h2⟩ := h
    subst h2
    exact ⟨hdb, hc⟩
  · cases hA : Enhanced.phaseA now ips [] [] s with
    | error e =>
        rw [hA] at h
        simp only [bind, Except.bind] at h
        exact Except.noConfusion h
    | ok t =>
        obtain ⟨res1, onl, s1⟩ := t
        rw [hA] at h
        simp only [bind, Except.bind] at h
        obtain ⟨hdb1, hc1⟩ := phaseA_c8 now ips [] [] s res1 onl s1 hA hdb hc
        split at h
        · cases hB : Enhanced.phaseB now onl res1 s1 with
          | error e =>
              rw [hB] at h
              simp only [bind, Except.bind] at h
              exact Except.noConfusion h
          | ok u =>
              obtain ⟨res2, s2⟩ := u
              rw [hB] at h
              simp only [bind, Except.bind] at h
              obtain ⟨hdb2, hc2⟩ := phaseB_c8 now onl res1 s1 res2 s2 hB hdb1 hc1
              simp only [Except.ok.injEq, Prod.mk.injEq] at h
              obtain ⟨-, h2⟩ := h
              subst h2
              refine ⟨?_, ?_⟩
              · rw [save_cache_db]
                exact hdb2
              · rw [save_cache_cache]
                exact hc2
        · simp only [pure, Except.pure, bind, Except.bind] at h
          simp only [Except.ok.injEq, Prod.mk.injEq] at h
          obtain ⟨-, h2⟩ := h
          subst h2
          refine ⟨?_, ?_⟩
          · rw [save_cache_db]
            exact hdb1
          · rw [save_cache_cache]
            exact hc1

/-- C8 (counterexample): resolving 8.8.8.8 in the bare configuration yields a
`source='fallback'` record, yet the durable store is *not* left unchanged —
the local-database tier has inserted a row for the IP during the same
resolution; and the bulk path produces a fallback record without writing
anything to the ephemeral cache (the final cache is empty). -/
theorem c8_counterexample :
    aget (okDict (Enhanced.get_ip_info bareState 0 "8.8.8.8")) "source" =
      some (.s "fallback") ∧
    (okState (Enhanced.get_ip_info bareState 0 "8.8.8.8")).db ≠ bareState.db ∧
    aget (okRes (Enhanced.bulk_lookup bareState 0 ["8.8.8.8"])) "8.8.8.8" =
      some (Enhanced.bulkFallbackDict 0 "8.8.8.8") ∧
    aget (Enhanced.bulkFallbackDict 0 "8.8.8.8") "source" =
      some (.s "fallback") ∧
    (okResState (Enhanced.bulk_lookup bareState 0 ["8.8.8.8"])).cache = [] := by
  decide

/-- C8 (amended): fallback-tagged records are never written to the durable
store — starting from a store and cache free of `source='fallback'` entries,
both the single-IP and the bulk resolution paths keep the store free of
fallback rows (the guard at the store write holds) — and whenever the
single-IP path returns a fallback record, that record *is* written to the
ephemeral cache.  The claim's frame half is false as stated: the store is not
left unchanged (the local-database tier inserts an all-"Unknown"
`source='unknown'` row for the same IP, see the counterexample), and the bulk
path never caches its fallback records (it preserves a fallback-free cache). -/
theorem c8_fallback_frame (s : SvcState) (now : Nat)
    (hdb : noFallbackRows s.db) (hc : noFallbackCache s.cache) :
    (∀ ip d s', Enhanced.get_ip_info s now ip = .ok (d, s') →
       noFallbackRows s'.db ∧
       (aget d "source" = some (.s "fallback") → aget s'.cache ip = some d)) ∧
    (∀ ips res sB, Enhanced.bulk_lookup s now ips = .ok (res, sB) →
       noFallbackRows sB.db ∧ noFallbackCache sB.cache) :=
  ⟨fun ip d s' h => enhanced_get_ip_info_c8 s now ip d s' h hdb,
   fun ips res sB h => bulk_c8 s now ips res sB h hdb hc⟩

/-- C8 (witness): the amended theorem at the bare state and 8.8.8.8 — the
single path caches the fallback record it returns, and no fallback row enters
the store or (for the bulk path) the cache. -/
theorem c8_witness :
    noFallbackRows (okState (Enhanced.get_ip_info bareState 0 "8.8.8.8")).db ∧
    aget (okState (Enhanced.get_ip_info bareState 0 "8.8.8.8")).cache "8.8.8.8" =
      some (okDict (Enhanced.get_ip_info bareState 0 "8.8.8.8")) ∧
    noFallbackRows (okResState (Enhanced.bulk_lookup bareState 0 ["8.8.8.8"])).db ∧
    noFallbackCache
      (okResState (Enhanced.bulk_lookup bareState 0 ["8.8.8.8"])).cache := by
  have hmain := c8_fallback_frame bareState 0
    (by intro p hp; simp [bareState] at hp)
    (by intro p hp; simp [bareState] at hp)
  have hs := hmain.1 "8.8.8.8"
    (okDict (Enhanced.get_ip_info bareState 0 "8.8.8.8"))
    (okState (Enhanced.get_ip_info bareState 0 "8.8.8.8")) rfl
  have hb := hmain.2 ["8.8.8.8"]
    (okRes (Enhanced.bulk_lookup bareState 0 ["8.8.8.8"]))
    (okResState (Enhanced.bulk_lookup bareState 0 ["8.8.8.8"])) rfl
  exact ⟨hs.1, hs.2 (by decide), hb.1, hb.2⟩

/-- C9: on the malformed input "abc" (one non-numeric octet) the two private-IP
classifier variants disagree: `IPInfoService._is_private_ip` treats the
unparsable address as private (`True`), while the classifier shared by
`EnhancedIPinfoService`/`LocalIPDatabase` returns `False`. -/
theorem c9_classifiers_disagree :
    IPInfoSvc.is_private_ip "abc" = true ∧
    Enhanced.is_private_ip "abc" = false := by
  decide
